import Mathlib
/-!
Formal model of the local-anonymizer file-processing pipeline.
The definitions below are shallow embeddings of the TypeScript sources of the
repository (worker pipeline `processor.ts`, shared helpers `hash.ts`-style
utilities, the delivery-target route `targets.ts`, and the multi-target worker
processor).  External effects (HTTP calls, the file system, the clock) are
modelled by oracle fields of an environment record, and each run of the
pipeline produces a trace of the calls it performed together with its outcome.
-/

namespace LocalAnonymizer

/-! ## SHA-256 (Node `crypto.createHash('sha256')`), used by `hashString` -/
/-- 2^32, the modulus of all 32-bit arithmetic in SHA-256. -/
def w32 : Nat := 4294967296

/-- Addition modulo 2^32. -/
def add32 (a b : Nat) : Nat := (a + b) % w32

/-- Right rotation of a 32-bit word. -/
def rotr32 (n x : Nat) : Nat := ((x >>> n) ||| (x <<< (32 - n))) % w32

/-- SHA-256 small sigma 0 (message schedule). -/
def ssig0 (x : Nat) : Nat := (rotr32 7 x) ^^^ (rotr32 18 x) ^^^ (x >>> 3)

/-- SHA-256 small sigma 1 (message schedule). -/
def ssig1 (x : Nat) : Nat := (rotr32 17 x) ^^^ (rotr32 19 x) ^^^ (x >>> 10)

/-- SHA-256 big sigma 0 (compression). -/
def bsig0 (x : Nat) : Nat := (rotr32 2 x) ^^^ (rotr32 13 x) ^^^ (rotr32 22 x)

/-- SHA-256 big sigma 1 (compression). -/
def bsig1 (x : Nat) : Nat := (rotr32 6 x) ^^^ (rotr32 11 x) ^^^ (rotr32 25 x)

/-- SHA-256 choice function. -/
def chFn (x y z : Nat) : Nat := (x &&& y) ^^^ ((x ^^^ 4294967295) &&& z)

/-- SHA-256 majority function. -/
def majFn (x y z : Nat) : Nat := (x &&& y) ^^^ (x &&& z) ^^^ (y &&& z)

/-- The 64 SHA-256 round constants. -/
def k256 : List Nat :=
  [1116352408, 1899447441, 3049323471, 3921009573, 961987163, 1508970993,
   2453635748, 2870763221, 3624381080, 310598401, 607225278, 1426881987,
   1925078388, 2162078206, 2614888103, 3248222580, 3835390401, 4022224774,
   264347078, 604807628, 770255983, 1249150122, 1555081692, 1996064986,
   2554220882, 2821834349, 2952996808, 3210313671, 3336571891, 3584528711,
   113926993, 338241895, 666307205, 773529912, 1294757372, 1396182291,
   1695183700, 1986661051, 2177026350, 2456956037, 2730485921, 2820302411,
   3259730800, 3345764771, 3516065817, 3600352804, 4094571909, 275423344,
   430227734, 506948616, 659060556, 883997877, 958139571, 1322822218,
   1537002063, 1747873779, 1955562222, 2024104815, 2227730452, 2361852424,
   2428436474, 2756734187, 3204031479, 3329325298]

/-- Group a byte list into big-endian 32-bit words. -/
def bytesToWords : List Nat → List Nat
  | a :: b :: c :: d :: rest =>
      (a * 16777216 + b * 65536 + c * 256 + d) :: bytesToWords rest
  | _ => []

/-- Extend the 16-word schedule; `acc` is the schedule built so far, reversed.
`acc.getD 1` is `w[t-2]`, `acc.getD 6` is `w[t-7]`, `acc.getD 14` is `w[t-15]`
and `acc.getD 15` is `w[t-16]`. -/
def scheduleAux : Nat → List Nat → List Nat
  | 0, acc => acc
  | n + 1, acc =>
      scheduleAux n
        ((add32 (add32 (ssig1 (acc.getD 1 0)) (acc.getD 6 0))
            (add32 (ssig0 (acc.getD 14 0)) (acc.getD 15 0))) :: acc)

/-- SHA-256 message schedule: 16 chunk words extended to 64 words. -/
def schedule (first16 : List Nat) : List Nat :=
  (scheduleAux 48 first16.reverse).reverse

/-- The eight 32-bit working values of the SHA-256 state. -/
structure Hash8 where
  a : Nat
  b : Nat
  c : Nat
  d : Nat
  e : Nat
  f : Nat
  g : Nat
  h : Nat
  deriving Repr, DecidableEq

/-- SHA-256 initial hash values. -/
def initH : Hash8 :=
  ⟨1779033703, 3144134277, 1013904242, 2773480762, 1359893119, 2600822924, 528734635, 1541459225⟩

/-- One SHA-256 compression round; `kw` is the pair (round constant, schedule word). -/
def compressStep (st : Hash8) (kw : Nat × Nat) : Hash8 :=
  let t1 := add32 st.h (add32 (bsig1 st.e) (add32 (chFn st.e st.f st.g) (add32 kw.1 kw.2)))
  let t2 := add32 (bsig0 st.a) (majFn st.a st.b st.c)
  ⟨add32 t1 t2, st.a, st.b, st.c, add32 st.d t1, st.e, st.f, st.g⟩

/-- Process one 64-byte chunk. -/
def processChunk (h0 : Hash8) (chunk : List Nat) : Hash8 :=
  let st := (k256.zip (schedule (bytesToWords chunk))).foldl compressStep h0
  ⟨add32 h0.a st.a, add32 h0.b st.b, add32 h0.c st.c, add32 h0.d st.d,
   add32 h0.e st.e, add32 h0.f st.f, add32 h0.g st.g, add32 h0.h st.h⟩

/-- The message bit length as 8 big-endian bytes. -/
def lenBytes8 (n : Nat) : List Nat :=
  [(n >>> 56) % 256, (n >>> 48) % 256, (n >>> 40) % 256, (n >>> 32) % 256,
   (n >>> 24) % 256, (n >>> 16) % 256, (n >>> 8) % 256, n % 256]

/-- SHA-256 padding: append 0x80, zeros to 56 mod 64, then the 64-bit bit length. -/
def padMessage (msg : List Nat) : List Nat :=
  msg ++ [128] ++ List.replicate ((119 - msg.length % 64) % 64) 0 ++ lenBytes8 (msg.length * 8)

/-- Split a (padded) byte list into 64-byte chunks; the fuel is the list length. -/
def chunks64Aux : Nat → List Nat → List (List Nat)
  | 0, _ => []
  | _ + 1, [] => []
  | fuel + 1, l => l.take 64 :: chunks64Aux fuel (l.drop 64)

/-- Split a byte list into 64-byte chunks. -/
def chunks64 (l : List Nat) : List (List Nat) := chunks64Aux l.length l

/-- SHA-256 of a byte list, as eight 32-bit words. -/
def sha256Bytes (msg : List Nat) : Hash8 :=
  (chunks64 (padMessage msg)).foldl processChunk initH

/-- The eight low hex digit characters. -/
def hexDigitsLow : List Char :=
  ['0', '1', '2', '3', '4', '5', '6', '7']

/-- The eight high hex digit characters. -/
def hexDigitsHigh : List Char :=
  ['8', '9', 'a', 'b', 'c', 'd', 'e', 'f']

/-- The sixteen lowercase hex digit characters. -/
def hexChars : List Char := hexDigitsLow ++ hexDigitsHigh

/-- Hex digit for a nibble. -/
def hexDigit (n : Nat) : Char := hexChars.getD n '0'

/-- Lowercase hex rendering of a 32-bit word (8 digits). -/
def hexWord32 (x : Nat) : List Char :=
  [hexDigit ((x >>> 28) % 16), hexDigit ((x >>> 24) % 16), hexDigit ((x >>> 20) % 16),
   hexDigit ((x >>> 16) % 16), hexDigit ((x >>> 12) % 16), hexDigit ((x >>> 8) % 16),
   hexDigit ((x >>> 4) % 16), hexDigit (x % 16)]

/-- Hex rendering of a SHA-256 digest (64 digits). -/
def hash8Hex (h : Hash8) : List Char :=
  hexWord32 h.a ++ hexWord32 h.b ++ hexWord32 h.c ++ hexWord32 h.d ++
  hexWord32 h.e ++ hexWord32 h.f ++ hexWord32 h.g ++ hexWord32 h.h

/-- UTF-8 encoding of a single code point. -/
def utf8EncodeChar (c : Char) : List Nat :=
  let n := c.toNat
  if n < 128 then [n]
  else if n < 2048 then [192 + n / 64, 128 + n % 64]
  else if n < 65536 then [224 + n / 4096, 128 + (n / 64) % 64, 128 + n % 64]
  else [240 + n / 262144, 128 + (n / 4096) % 64, 128 + (n / 64) % 64, 128 + n % 64]

/-- The UTF-8 bytes of a string, as naturals. -/
def utf8Bytes (s : String) : List Nat := s.data.flatMap utf8EncodeChar

/-- `hashString(value)` from the shared utilities: SHA-256 hex digest of the
UTF-8 encoding of the string (`crypto.createHash('sha256').update(value).digest('hex')`). -/
def hashString (value : String) : String :=
  String.mk (hash8Hex (sha256Bytes (utf8Bytes value)))

/-! ## Node `path` helpers used by the worker -/
/-- String prefix test over the character data (kernel-friendly
`String.startsWith`). -/
def strStartsWith (s pre : String) : Bool := pre.data.isPrefixOf s.data

/-- String suffix test over the character data (kernel-friendly
`String.endsWith`). -/
def strEndsWith (s suf : String) : Bool := suf.data.isSuffixOf s.data

/-- Drop the first `n` characters (kernel-friendly `String.drop`). -/
def strDrop (s : String) (n : Nat) : String := String.mk (s.data.drop n)

/-- Drop the last `n` characters (kernel-friendly `String.dropRight`). -/
def strDropRight (s : String) (n : Nat) : String :=
  String.mk (s.data.take (s.data.length - n))

/-- Last non-empty `/`-separated component, accumulating the current component
and the last non-empty one (both reversed). -/
def basenameAux : List Char → List Char → List Char → List Char
  | [], cur, last => if cur = [] then last else cur
  | c :: rest, cur, last =>
      if c = '/' then basenameAux rest [] (if cur = [] then last else cur)
      else basenameAux rest (c :: cur) last

/-- `path.basename`: the last `/`-separated component of a path (trailing
slashes ignored, as in Node). -/
def basename (p : String) : String := String.mk (basenameAux p.data [] []).reverse

/-- Index (from the start) of the last `.` of a character list, if any. -/
def lastDotIdx (cs : List Char) (i : Nat) : Option Nat :=
  match cs with
  | [] => none
  | c :: rest =>
      match lastDotIdx rest (i + 1) with
      | some j => some j
      | none => if c = '.' then some i else none

/-- `path.extname`: the suffix of a base name from its last `.`, or `""` when
there is no dot or the only dot is the leading character. -/
def extname (base : String) : String :=
  match lastDotIdx base.data 0 with
  | some i => if i = 0 then "" else String.mk (base.data.drop i)
  | none => ""

/-- `String.prototype.toLowerCase` restricted to ASCII, as applied to extensions. -/
def toLowerStr (s : String) : String := String.mk (s.data.map Char.toLower)

/-- `ACCEPTED_EXTENSIONS` from the shared constants. -/
def ACCEPTED_EXTENSIONS : List String := [".json"]

/-- `MAX_FILE_SIZE_BYTES` from the shared constants (10 MB). -/
def MAX_FILE_SIZE_BYTES : Nat := 10 * 1024 * 1024

/-! ## JSON values

JavaScript JSON values as a plain inductive.  JS `undefined` is not a JSON
value; where it matters (template rendering, optional object fields) it is
modelled with `Option Jval` (`none` = undefined). -/
inductive Jval where
  | null : Jval
  | bool : Bool → Jval
  | num : Int → Jval
  | str : String → Jval
  | arr : List Jval → Jval
  | obj : List (String × Jval) → Jval
  deriving Repr

/-- JSON string escaping as produced by `JSON.stringify`. -/
def escapeChar (c : Char) : String :=
  if c = '"' then "\\\""
  else if c = '\\' then "\\\\"
  else if c = (Char.ofNat 8) then "\\b"
  else if c = '\t' then "\\t"
  else if c = '\n' then "\\n"
  else if c = (Char.ofNat 12) then "\\f"
  else if c = (Char.ofNat 13) then "\\r"
  else if c.toNat < 32 then
    String.mk ['\\', 'u', '0', '0', hexDigit (c.toNat / 16), hexDigit (c.toNat % 16)]
  else String.mk [c]

/-- A JSON string literal as produced by `JSON.stringify`. -/
def jstrLit (s : String) : String :=
  "\"" ++ String.join (s.data.map escapeChar) ++ "\""

mutual
/-- Serialize a JSON value the way `JSON.stringify` (no replacer, no spacing)
prints it. -/
def jsonToString : Jval → String
  | Jval.null => "null"
  | Jval.bool b => if b then "true" else "false"
  | Jval.num n => toString n
  | Jval.str s => jstrLit s
  | Jval.arr xs => "[" ++ jsonToStringArr xs ++ "]"
  | Jval.obj kvs => "\x7b" ++ jsonToStringObj kvs ++ "\x7d"

/-- Comma-separated serialization of array elements. -/
def jsonToStringArr : List Jval → String
  | [] => ""
  | [x] => jsonToString x
  | x :: y :: rest => jsonToString x ++ "," ++ jsonToStringArr (y :: rest)

/-- Comma-separated serialization of object entries. -/
def jsonToStringObj : List (String × Jval) → String
  | [] => ""
  | [kv] => jstrLit kv.1 ++ ":" ++ jsonToString kv.2
  | kv :: kw :: rest => jstrLit kv.1 ++ ":" ++ jsonToString kv.2 ++ "," ++ jsonToStringObj (kw :: rest)
end

mutual
/-- Structural size of a JSON value, used as serialization fuel below. -/
def jsize : Jval → Nat
  | Jval.null => 1
  | Jval.bool _ => 1
  | Jval.num _ => 1
  | Jval.str _ => 1
  | Jval.arr xs => 1 + jsizeArr xs
  | Jval.obj kvs => 1 + jsizeObj kvs

/-- Structural size of a list of JSON values. -/
def jsizeArr : List Jval → Nat
  | [] => 0
  | x :: xs => jsize x + jsizeArr xs

/-- Structural size of a list of JSON object entries. -/
def jsizeObj : List (String × Jval) → Nat
  | [] => 0
  | kv :: kvs => jsize kv.2 + jsizeObj kvs
end

/-! ## Data model (shared `schemas.ts`) -/
/-- Message role (`role ∈ {user, assistant, system}`). -/
inductive Role where
  | user : Role
  | assistant : Role
  | system : Role
  deriving Repr, DecidableEq

/-- The JSON string of a role. -/
def roleToString : Role → String
  | Role.user => "user"
  | Role.assistant => "assistant"
  | Role.system => "system"

/-- `ChatMessageSchema`: a message of an uploaded chat log. -/
structure ChatMessage where
  id : String
  role : Role
  content : String
  timestamp : Option String
  deriving Repr

/-- `ChatLogSchema`: an uploaded chat log after schema validation. -/
structure ChatLog where
  version : Option String
  messages : List ChatMessage
  metadata : Option Jval
  deriving Repr

/-- `AnonymizedMessageSchema`. -/
structure AnonymizedMessage where
  id : String
  role : Role
  content : String
  timestamp : Option String
  entities_found : Nat
  deriving Repr

/-- `AnonymizationResultSchema`: the delivery payload (`metadata = none`
models a JS object without the `metadata` property). -/
structure AnonymizationResult where
  source_file_hash : String
  byte_size : Nat
  processed_at : String
  messages : List AnonymizedMessage
  metadata : Option Jval
  deriving Repr

/-- `AnonymizationOperatorSchema`: `replace | redact | hash`. -/
inductive AnonymizationOperator where
  | replace : AnonymizationOperator
  | redact : AnonymizationOperator
  | hash : AnonymizationOperator
  deriving Repr, DecidableEq

/-- A Presidio anonymizer operator configuration (`presidio-client.ts`). -/
structure PresidioOperator where
  type : AnonymizationOperator
  hash_type : Option String
  deriving Repr, DecidableEq

/-- `PresidioOperatorsMap`: entity type (or `"DEFAULT"`) to operator. -/
def PresidioOperatorsMap := List (String × PresidioOperator)

/-- A single entity finding of the Presidio analyzer.  The source also carries
`start`, `end` and the floating-point `score`; only `entity_type` feeds the
pipeline logic modelled here. -/
structure PresidioFinding where
  entity_type : String
  deriving Repr, DecidableEq

/-- `buildAnonymizers(operator)` from the worker processor: a single `DEFAULT`
entry applying the configured operator to all entity types. -/
def buildAnonymizers : AnonymizationOperator → List (String × PresidioOperator)
  | AnonymizationOperator.redact => [("DEFAULT", ⟨AnonymizationOperator.redact, none⟩)]
  | AnonymizationOperator.hash => [("DEFAULT", ⟨AnonymizationOperator.hash, some "sha256"⟩)]
  | AnonymizationOperator.replace => [("DEFAULT", ⟨AnonymizationOperator.replace, none⟩)]

/-- `DeliveryTargetAuthSchema`: tagged union of the auth variants. -/
inductive DeliveryTargetAuth where
  | none : DeliveryTargetAuth
  | bearerToken : String → DeliveryTargetAuth
  | apiKeyHeader : String → String → DeliveryTargetAuth
  | basic : String → String → DeliveryTargetAuth
  deriving Repr

/-- `DeliveryTargetSchema` (`bodyTemplate` is a JSON object when present). -/
structure DeliveryTarget where
  id : String
  name : String
  url : String
  method : String
  headers : List (String × String)
  auth : DeliveryTargetAuth
  timeoutMs : Nat
  retries : Nat
  backoffMs : Nat
  enabled : Bool
  bodyTemplate : Option (List (String × Jval))
  deriving Repr

/-! ## Body-template rendering (`renderBodyTemplate`, identical in
`server/src/routes/targets.ts` and the multi-target worker processor) -/
/-- The `messages` template variable: anonymized messages mapped to
`{ role, content, timestamp? }`, stripping `id` and `entities_found`. -/
def messageVarJval (m : AnonymizedMessage) : Jval :=
  Jval.obj ([("role", Jval.str (roleToString m.role)), ("content", Jval.str m.content)] ++
    (match m.timestamp with
     | some t => [("timestamp", Jval.str t)]
     | Option.none => []))

/-- The own property names of `Object.prototype` whose values are functions.
The replacer's membership test `varName in vars` walks the prototype chain, so
a placeholder naming one of these is substituted with the inherited function;
`JSON.stringify` then treats the function value exactly like `undefined`
(the key is dropped from objects, the element becomes `null` in arrays). -/
def protoFnNames : List String :=
  ["constructor", "__defineGetter__", "__defineSetter__", "hasOwnProperty",
   "__lookupGetter__", "__lookupSetter__", "isPrototypeOf",
   "propertyIsEnumerable", "toString", "valueOf", "toLocaleString"]

/-- Whether `s` names an inherited `Object.prototype` property of the `vars`
object literal: one of the function-valued names, or the `__proto__` accessor
(whose value, `Object.prototype`, has no own enumerable properties and
serializes as `\x7b\x7d`). -/
def isInheritedName (s : String) : Bool :=
  protoFnNames.contains s || s == "__proto__"

/-- The `vars` record of `renderBodyTemplate`.  The outer `Option` is key
membership (`varName in vars`, which walks the prototype chain); the inner
`Option` is the JS value as `JSON.stringify` treats it, with `none` =
`undefined` (the `metadata` key is present even when the result has no
metadata, and an inherited function value serializes like `undefined`). -/
def renderVars (result : AnonymizationResult) (name : String) : Option (Option Jval) :=
  if name = "messages" then some (some (Jval.arr (result.messages.map messageVarJval)))
  else if name = "source_file_hash" then some (some (Jval.str result.source_file_hash))
  else if name = "processed_at" then some (some (Jval.str result.processed_at))
  else if name = "byte_size" then some (some (Jval.num result.byte_size))
  else if name = "metadata" then some result.metadata
  else if protoFnNames.contains name then some Option.none
  else if name = "__proto__" then some (some (Jval.obj []))
  else none

/-- The replacer of `renderBodyTemplate`: a string value of the exact shape
`${...}` is replaced by `vars[varName]` when `varName in vars` (possibly
`undefined`), and passed through unchanged otherwise; non-string values are
untouched. -/
def replaceVal (vars : String → Option (Option Jval)) (v : Jval) : Option Jval :=
  match v with
  | Jval.str s =>
      if strStartsWith s "$\x7b" && strEndsWith s "\x7d" then
        match vars (strDropRight (strDrop s 2) 1) with
        | some jv => jv
        | Option.none => some (Jval.str s)
      else some (Jval.str s)
  | w => some w

/-- `JSON.stringify(template, replacer)` at the JSON-value level: the replacer
is applied at every node, including inside values it substituted; an
`undefined` result (`none`) is dropped from objects and becomes `null` in
arrays.  The fuel bounds the serialization depth; `JSON.stringify` itself
fails with a circularity error in the only situations where the fuel can run
out, and `renderBodyTemplate` below supplies fuel exceeding every depth
reachable without such a substitution cycle. -/
def serializeJ (vars : String → Option (Option Jval)) : Nat → Jval → Option Jval
  | 0, _ => none
  | fuel + 1, v =>
      match replaceVal vars v with
      | Option.none => none
      | some (Jval.arr xs) =>
          some (Jval.arr (xs.map (fun x => (serializeJ vars fuel x).getD Jval.null)))
      | some (Jval.obj kvs) =>
          some (Jval.obj (kvs.filterMap
            (fun kv => (serializeJ vars fuel kv.2).map (fun w => (kv.1, w)))))
      | some w => some w

/-- Total size of the five template variable values of a result. -/
def varsSize (result : AnonymizationResult) : Nat :=
  jsize (Jval.arr (result.messages.map messageVarJval)) +
  jsize (Jval.str result.source_file_hash) +
  jsize (Jval.str result.processed_at) + 1 +
  (match result.metadata with
   | some m => jsize m
   | Option.none => 0)

/-- Serialization fuel for a template: enough for the template itself plus one
substituted variable value at each leaf. -/
def renderFuel (template : List (String × Jval)) (result : AnonymizationResult) : Nat :=
  jsize (Jval.obj template) + varsSize result + 1

/-- The rendered template as a JSON value
(`JSON.parse(JSON.stringify(template, replacer))`). -/
def renderedBodyJson (template : List (String × Jval)) (result : AnonymizationResult) :
    Option Jval :=
  serializeJ (renderVars result) (renderFuel template result) (Jval.obj template)

/-- `renderBodyTemplate(template, result)`: the rendered template serialized
back to a JSON string. -/
def renderBodyTemplate (template : List (String × Jval)) (result : AnonymizationResult) :
    String :=
  jsonToString ((renderedBodyJson template result).getD Jval.null)

/-! ## Loopback URL rewriting (`normalizeLocalTargetUrl` in the shared utilities)

The WHATWG `URL` object is modelled by `UrlParts` (its `hostname` field holds
an IPv6 address without brackets, as in the browser API); `parseUrl` covers
the canonical `http(s)://host[:port][/path]` shapes the application produces,
and any other string takes the `catch` fallback of the source and is returned
unchanged. -/
/-- A parsed URL: scheme, hostname, optional port, and the rest of the URL
(path, query and fragment). -/
structure UrlParts where
  scheme : String
  hostname : String
  port : Option String
  path : String
  deriving Repr, DecidableEq

/-- The loopback hostnames rewritten by `normalizeLocalTargetUrl`. -/
def isLoopbackHost (h : String) : Bool :=
  h = "localhost" || h = "127.0.0.1" || h = "::1"

/-- The hostname rewrite of `normalizeLocalTargetUrl` on a parsed URL:
loopback hosts become `host.docker.internal`, every other URL is untouched. -/
def rewriteLoopback (u : UrlParts) : UrlParts :=
  if isLoopbackHost u.hostname then { u with hostname := "host.docker.internal" } else u

/-- `URL.prototype.toString` on the modelled parts (IPv6 hostnames are
re-bracketed). -/
def urlToString (u : UrlParts) : String :=
  u.scheme ++ "://" ++
    (if u.hostname.data.contains ':' then "[" ++ u.hostname ++ "]" else u.hostname) ++
    (match u.port with
     | some p => ":" ++ p
     | none => "") ++
    u.path

/-- Split a character list at the first `/`, keeping the slash in the tail. -/
def splitAtSlash : List Char → List Char × List Char
  | [] => ([], [])
  | c :: rest =>
      if c = '/' then ([], c :: rest)
      else
        let (a, b) := splitAtSlash rest
        (c :: a, b)

/-- Split a character list at the first `:`. -/
def splitAtColon : List Char → List Char × Option (List Char)
  | [] => ([], none)
  | c :: rest =>
      if c = ':' then ([], some rest)
      else
        let (a, b) := splitAtColon rest
        (c :: a, b)

/-- Split a character list at the first `]`, dropping the bracket. -/
def splitAtRBracket : List Char → Option (List Char × List Char)
  | [] => none
  | c :: rest =>
      if c = ']' then some ([], rest)
      else
        match splitAtRBracket rest with
        | some (a, b) => some (c :: a, b)
        | none => none

/-- Parse an authority component `host[:port]`, with `[...]` IPv6 brackets. -/
def parseAuthority (cs : List Char) : Option (String × Option String) :=
  match cs with
  | '[' :: rest =>
      match splitAtRBracket rest with
      | some (host, []) => some (String.mk host, none)
      | some (host, ':' :: p) =>
          if p ≠ [] ∧ p.all Char.isDigit then some (String.mk host, some (String.mk p))
          else none
      | _ => none
  | _ =>
      let (host, after) := splitAtColon cs
      if host = [] then none
      else
        match after with
        | none => some (String.mk host, none)
        | some p =>
            if p ≠ [] ∧ p.all Char.isDigit then some (String.mk host, some (String.mk p))
            else none

/-- Parse a canonical `http(s)` URL into its parts. -/
def parseUrl (s : String) : Option UrlParts :=
  let go (scheme rest : String) : Option UrlParts :=
    let (auth, path) := splitAtSlash rest.data
    match parseAuthority auth with
    | some (host, port) => some ⟨scheme, host, port, String.mk path⟩
    | none => none
  if strStartsWith s "http://" then go "http" (strDrop s 7)
  else if strStartsWith s "https://" then go "https" (strDrop s 8)
  else none

/-- `normalizeLocalTargetUrl(url)` from the shared utilities: parse the URL,
rewrite a loopback hostname to `host.docker.internal`, and serialize; a string
that does not parse is returned unchanged (the `catch` branch). -/
def normalizeLocalTargetUrl (s : String) : String :=
  match parseUrl s with
  | some u => urlToString (rewriteLoopback u)
  | none => s

/-! ## Delivery request construction (multi-target worker processor and the
target test route) -/
/-- The base64 alphabet. -/
def b64Chars : List Char :=
  "ABCDEFGHIJKLMNOPQRSTUVWXYZabcdefghijklmnopqrstuvwxyz0123456789+/".data

/-- `Buffer.from(bytes).toString('base64')`. -/
def base64Encode : List Nat → String
  | [] => ""
  | [a] =>
      String.mk [b64Chars.getD (a / 4) 'A', b64Chars.getD ((a % 4) * 16) 'A'] ++ "=="
  | [a, b] =>
      String.mk [b64Chars.getD (a / 4) 'A', b64Chars.getD ((a % 4) * 16 + b / 16) 'A',
        b64Chars.getD ((b % 16) * 4) 'A'] ++ "="
  | a :: b :: c :: rest =>
      String.mk [b64Chars.getD (a / 4) 'A', b64Chars.getD ((a % 4) * 16 + b / 16) 'A',
        b64Chars.getD ((b % 16) * 4 + c / 64) 'A', b64Chars.getD (c % 64) 'A'] ++
        base64Encode rest

/-- `buildAuthHeaders(auth)` from the multi-target worker processor. -/
def buildAuthHeaders : DeliveryTargetAuth → List (String × String)
  | DeliveryTargetAuth.bearerToken t => [("Authorization", "Bearer " ++ t)]
  | DeliveryTargetAuth.apiKeyHeader h k => [(h, k)]
  | DeliveryTargetAuth.basic u p =>
      [("Authorization", "Basic " ++ base64Encode (utf8Bytes (u ++ ":" ++ p)))]
  | DeliveryTargetAuth.none => []

/-- JS object spread `{...a, ...b}` on string records: keys of `a` keep their
position (values overridden by `b` where both define the key), new keys of `b`
follow. -/
def spreadMerge (a b : List (String × String)) : List (String × String) :=
  a.map (fun p =>
    match b.find? (fun q => q.1 = p.1) with
    | some q => (p.1, q.2)
    | none => p) ++
  b.filter (fun q => ¬ a.any (fun p => p.1 = q.1))

/-- `JSON.stringify` shape of an `AnonymizedMessage` (an absent timestamp is
an `undefined` property and is dropped). -/
def anonymizedMessageJval (m : AnonymizedMessage) : Jval :=
  Jval.obj ([("id", Jval.str m.id), ("role", Jval.str (roleToString m.role)),
    ("content", Jval.str m.content)] ++
    (match m.timestamp with
     | some t => [("timestamp", Jval.str t)]
     | none => []) ++
    [("entities_found", Jval.num m.entities_found)])

/-- `JSON.stringify` shape of an `AnonymizationResult`. -/
def resultJval (r : AnonymizationResult) : Jval :=
  Jval.obj ([("source_file_hash", Jval.str r.source_file_hash),
    ("byte_size", Jval.num r.byte_size), ("processed_at", Jval.str r.processed_at),
    ("messages", Jval.arr (r.messages.map anonymizedMessageJval))] ++
    (match r.metadata with
     | some m => [("metadata", m)]
     | none => []))

/-- An outgoing HTTP request, as assembled before `fetch`. -/
structure FetchReq where
  url : String
  method : String
  headers : List (String × String)
  body : Option String
  deriving Repr

/-- The request assembled by `callTarget(target, result)` in the multi-target
worker processor: merged headers, rendered or full-result body (no body on
GET), and the loopback-normalized URL. -/
def callTargetRequest (target : DeliveryTarget) (result : AnonymizationResult) : FetchReq :=
  { url := normalizeLocalTargetUrl target.url
    method := target.method
    headers := spreadMerge (spreadMerge [("Content-Type", "application/json")] target.headers)
      (buildAuthHeaders target.auth)
    body :=
      if target.method ≠ "GET" then
        some (match target.bodyTemplate with
          | some tpl => renderBodyTemplate tpl result
          | none => jsonToString (resultJval result))
      else none }

/-- The request assembled by the `POST /api/targets/:id/test` route for an
enabled target: same auth-header logic, same body choice against the synthetic
test payload, and the same loopback-normalized URL. -/
def testCallRequest (target : DeliveryTarget) (testResult : AnonymizationResult) : FetchReq :=
  { url := normalizeLocalTargetUrl target.url
    method := target.method
    headers := spreadMerge (spreadMerge [("Content-Type", "application/json")] target.headers)
      (buildAuthHeaders target.auth)
    body :=
      if target.method ≠ "GET" then
        some (match target.bodyTemplate with
          | some tpl => renderBodyTemplate tpl testResult
          | none => jsonToString (resultJval testResult))
      else none }

/-! ## Worker pipeline embedding (`worker/src/processor.ts`)

`processFile` below mirrors the orchestrator statement by statement.  Every
external call is an entry of the produced trace; its outcome is drawn from
the environment.  An exception that escapes `processFile` (the watcher logs
it and drops the file) is the `Outcome.threw` terminal. -/
/-- A partial run update (`PATCH /api/runs/:id` body).  `none` fields are
absent from the JS object. -/
structure RunUpdate where
  status : Option String := none
  errorCode : Option String := none
  errorMessageSafe : Option String := none
  presidioStats : Option (List (String × Nat)) := none
  deliveryStatusCode : Option Nat := none
  deliveryDurationMs : Option Int := none
  durationMs : Option Int := none
  deriving Repr, DecidableEq

/-- One observable external call of the pipeline. -/
inductive Ev where
  | createRun (sourceFileName : String) (sourceFileSize : Nat) (status : String)
  | updateRun (id : String) (fields : RunUpdate)
  | appendLog (runId : Option String) (eventType : String) (level : String) (meta : Option Jval)
  | presidioAnalyze (text : String) (language : String)
  | presidioAnonymize (text : String) (findings : List PresidioFinding) (ops : List (String × PresidioOperator))
  | analysisCall (url : String)
  | httpDeliver (url : String)
  | callTarget (name : String) (url : String)
  | unlink (path : String)
  deriving Repr

/-- The worker configuration as returned by `getConfig()` (either the control
plane's values or the hardcoded safe defaults). -/
structure WorkerConfig where
  maxFileSizeBytes : Nat
  deleteAfterSuccess : Bool
  deleteAfterFailure : Bool
  anonymizationOperator : AnonymizationOperator
  analysisServiceUrl : Option String
  analysisServiceApiKey : Option String
  analysisServiceSentimentEnabled : Bool
  analysisServiceToxicityEnabled : Bool
  analysisServiceLanguageCode : String
  analysisServiceModel : Option String
  analysisServiceChannel : Option String
  analysisServiceTags : Option (List String)

/-- Oracle environment for one `processFile` run: the file-system, clock and
HTTP outcomes the pipeline observes, in the order it observes them. -/
structure Env where
  /-- The path the watcher passed in. -/
  filePath : String
  /-- Result of `getConfig()`. -/
  config : WorkerConfig
  /-- `fs.stat(filePath).size`; `none` = the stat threw (file gone). -/
  statSize : Option Nat
  /-- `createRun(...)` result; `none` = the POST threw. -/
  createRunResult : Option String
  /-- Whether the n-th `updateRun` call (0-based, in call order) resolves;
  `false` = the PATCH `fetch` rejected. -/
  updateOk : Nat → Bool
  /-- The exception message of a rejected n-th `updateRun` call. -/
  updateErrMsg : Nat → String
  /-- `fs.readFile(filePath, 'utf-8')`; `none` = the read threw. -/
  readResult : Option String
  /-- `ChatLogSchema.parse(JSON.parse(raw))`; `none` = parse or validation threw. -/
  parseChatLog : String → Option ChatLog
  /-- `presidio.analyze(content, LANGUAGE)`: findings, or the thrown message. -/
  analyzeRes : String → Except String (List PresidioFinding)
  /-- `presidio.anonymize(content, findings, anonymizers)`: text, or the thrown message. -/
  anonymizeRes : String → List PresidioFinding → List (String × PresidioOperator) → Except String String
  /-- The `LANGUAGE` environment variable. -/
  language : String
  /-- The `TARGET_URL` environment variable (`""` = unset). -/
  targetUrl : String
  /-- Legacy delivery `fetch`: transport error message, or `(res.ok, res.status)`. -/
  deliverFetch : Except String (Bool × Nat)
  /-- Whether the cleanup `fs.unlink` resolves. -/
  unlinkOk : Bool
  /-- Successive `Date.now()` readings. -/
  timeAt : Nat → Int
  /-- `nowIso()`. -/
  nowIsoStr : String

/-- Terminal state of one `processFile` invocation: a normal return, or an
exception escaping to the watcher's catch-all. -/
inductive Outcome where
  | returned : Outcome
  | threw (msg : String) : Outcome
  deriving Repr, DecidableEq

/-- Trace, outcome, and (when constructed) the delivery payload of a run. -/
structure ProcResult where
  trace : List Ev
  outcome : Outcome
  payload : Option AnonymizationResult

/-- JS truthiness of an optional string setting (`undefined` and `""` are falsy). -/
def strTruthy : Option String → Bool
  | some s => s ≠ ""
  | none => false

/-- `stats[k] = (stats[k] ?? 0) + 1` on a JS object modelled as an
insertion-ordered association list with unique keys. -/
def bumpStat : List (String × Nat) → String → List (String × Nat)
  | [], k => [(k, 1)]
  | (k', v) :: rest, k =>
      if k' = k then (k', v + 1) :: rest else (k', v) :: bumpStat rest k

/-- Fold a message's findings into the stats map. -/
def bumpStats (stats : List (String × Nat)) (fs : List PresidioFinding) : List (String × Nat) :=
  fs.foldl (fun s f => bumpStat s f.entity_type) stats

/-- `Object.values(presidioStats).reduce((a, b) => a + b, 0)`. -/
def statsSum (stats : List (String × Nat)) : Nat := (stats.map (fun p => p.2)).sum

/-- The per-message anonymization loop (step 3 of `processFile`): analyze each
message in order, anonymize when findings exist, accumulate output messages
and entity-type counts; a client error aborts with the thrown message. -/
def anonymizeLoop (env : Env) (ops : List (String × PresidioOperator)) :
    List ChatMessage → List AnonymizedMessage → List (String × Nat) →
    List Ev × Except String (List AnonymizedMessage × List (String × Nat))
  | [], accM, accS => ([], Except.ok (accM, accS))
  | msg :: rest, accM, accS =>
      let evA := Ev.presidioAnalyze msg.content env.language
      match env.analyzeRes msg.content with
      | Except.error m => ([evA], Except.error m)
      | Except.ok fs =>
          if fs.length > 0 then
            let evB := Ev.presidioAnonymize msg.content fs ops
            match env.anonymizeRes msg.content fs ops with
            | Except.error m => ([evA, evB], Except.error m)
            | Except.ok txt =>
                let (evs, r) := anonymizeLoop env ops rest
                  (accM ++ [⟨msg.id, msg.role, txt, msg.timestamp, fs.length⟩])
                  (bumpStats accS fs)
                (evA :: evB :: evs, r)
          else
            let (evs, r) := anonymizeLoop env ops rest
              (accM ++ [⟨msg.id, msg.role, msg.content, msg.timestamp, 0⟩])
              (bumpStats accS fs)
            (evA :: evs, r)

/-- The shared shape of the read/schema/presidio failure branches: mark the
run failed (when one exists), append `run_failed`, honor `deleteAfterFailure`,
return.  A rejected `updateRun` here is not caught and escapes, skipping the
audit append and the delete. -/
def failBranch (env : Env) (uIdx : Nat) (runId : Option String)
    (errorCode : String) (msgSafe : String) : List Ev × Outcome :=
  let unlinkEvs := if env.config.deleteAfterFailure then [Ev.unlink env.filePath] else []
  match runId with
  | some id =>
      let ev := Ev.updateRun id
        { status := some "failed", errorCode := some errorCode, errorMessageSafe := some msgSafe }
      if env.updateOk uIdx then
        (ev :: Ev.appendLog (some id) "run_failed" "error"
          (some (Jval.obj [("errorCode", Jval.str errorCode)])) :: unlinkEvs, Outcome.returned)
      else ([ev], Outcome.threw (env.updateErrMsg uIdx))
  | none => (unlinkEvs, Outcome.returned)

/-- The delivery `catch` branch: mark the run failed with `DELIVERY_ERROR` and
the thrown message, append `run_failed`, honor `deleteAfterFailure`, return.
`uIdx` is the index of the `updateRun` call, `tIdx` the index of the next
`Date.now()` reading. -/
def deliveryFailBranch (env : Env) (uIdx tIdx : Nat) (runId : Option String)
    (msg : String) : List Ev × Outcome :=
  let unlinkEvs := if env.config.deleteAfterFailure then [Ev.unlink env.filePath] else []
  match runId with
  | some id =>
      let ev := Ev.updateRun id
        { status := some "failed", errorCode := some "DELIVERY_ERROR",
          errorMessageSafe := some ("Delivery error: " ++ msg),
          deliveryDurationMs := some (env.timeAt tIdx - env.timeAt 1),
          durationMs := some (env.timeAt (tIdx + 1) - env.timeAt 0) }
      if env.updateOk uIdx then
        (ev :: Ev.appendLog (some id) "run_failed" "error"
          (some (Jval.obj [("errorCode", Jval.str "DELIVERY_ERROR")])) :: unlinkEvs, Outcome.returned)
      else ([ev], Outcome.threw (env.updateErrMsg uIdx))
  | none => (unlinkEvs, Outcome.returned)

/-- Step 4: the optional analysis-service calls.  Both endpoints are attempted
only when a URL and API key are configured (JS truthiness); failures are
logged and ignored, so the outcome is not part of the environment. -/
def analysisEvents (env : Env) : List Ev :=
  if strTruthy env.config.analysisServiceUrl && strTruthy env.config.analysisServiceApiKey then
    (if env.config.analysisServiceSentimentEnabled then
      [Ev.analysisCall ((env.config.analysisServiceUrl.getD "") ++ "/api/v1/analysis/sentiment")]
     else []) ++
    (if env.config.analysisServiceToxicityEnabled then
      [Ev.analysisCall ((env.config.analysisServiceUrl.getD "") ++ "/api/v1/analysis/toxicity")]
     else [])
  else []

/-- `deliverPayload(result)` of the legacy single-target processor: skip when
`TARGET_URL` is unset (resolving `null`), otherwise POST to it and throw
`Delivery target HTTP <status>` on a non-2xx response. -/
def deliverPayloadEvents (env : Env) : List Ev × Except String (Option Nat) :=
  if env.targetUrl = "" then ([], Except.ok none)
  else
    ([Ev.httpDeliver env.targetUrl],
     match env.deliverFetch with
     | Except.error m => Except.error m
     | Except.ok (ok, status) =>
         if ok then Except.ok (some status)
         else Except.error ("Delivery target HTTP " ++ toString status))

/-- Option-valued status code as it appears in audit meta (`null` when absent). -/
def optNatJval : Option Nat → Jval
  | some n => Jval.num n
  | none => Jval.null

/-- Step 6 of `processFile`: delete the source file when `deleteAfterSuccess`,
mark the run `deleted` and append `cleanup_deleted`; every failure inside this
step is caught and only logged. -/
def cleanupStep (env : Env) (runId : Option String) (acc : List Ev)
    (result : AnonymizationResult) : ProcResult :=
  if env.config.deleteAfterSuccess then
    let evU := Ev.unlink env.filePath
    if env.unlinkOk then
      match runId with
      | some id =>
          let evR := Ev.updateRun id { status := some "deleted" }
          if env.updateOk 3 then
            ⟨acc ++ [evU, evR, Ev.appendLog (some id) "cleanup_deleted" "info" none],
              Outcome.returned, some result⟩
          else ⟨acc ++ [evU, evR], Outcome.returned, some result⟩
      | none => ⟨acc ++ [evU], Outcome.returned, some result⟩
    else ⟨acc ++ [evU], Outcome.returned, some result⟩
  else ⟨acc, Outcome.returned, some result⟩

/-- Steps 4–6 of `processFile`, entered once the anonymization result exists:
analysis calls, `delivery_started`, the legacy delivery, the `delivered` or
`DELIVERY_ERROR` run update, and cleanup. -/
def afterAnonymized (env : Env) (runId : Option String) (result : AnonymizationResult)
    (acc : List Ev) : ProcResult :=
  let acc := acc ++ analysisEvents env ++
    (match runId with
     | some id => [Ev.appendLog (some id) "delivery_started" "info" none]
     | none => [])
  let (evD, dres) := deliverPayloadEvents env
  match dres with
  | Except.ok statusCode =>
      let deliveryDurationMs := env.timeAt 2 - env.timeAt 1
      match runId with
      | some id =>
          let evU := Ev.updateRun id
            { status := some "delivered", deliveryStatusCode := statusCode,
              deliveryDurationMs := some deliveryDurationMs,
              durationMs := some (env.timeAt 3 - env.timeAt 0) }
          if env.updateOk 2 then
            let evS := Ev.appendLog (some id) "delivery_succeeded" "info"
              (some (Jval.obj [("statusCode", optNatJval statusCode),
                ("deliveryDurationMs", Jval.num deliveryDurationMs)]))
            cleanupStep env runId (acc ++ evD ++ [evU, evS]) result
          else
            -- the awaited PATCH rejects inside the delivery try: the catch
            -- treats it as a delivery failure
            let (evs, oc) := deliveryFailBranch env 3 4 runId (env.updateErrMsg 2)
            ⟨acc ++ evD ++ evU :: evs, oc, some result⟩
      | none => cleanupStep env none (acc ++ evD) result
  | Except.error m =>
      let (evs, oc) := deliveryFailBranch env 2 2 runId m
      ⟨acc ++ evD ++ evs, oc, some result⟩

/-- `processFile(filePath)`: the full orchestration of one detected file. -/
def processFile (env : Env) : ProcResult :=
  let fileName := basename env.filePath
  let ext := toLowerStr (extname fileName)
  if ¬ ACCEPTED_EXTENSIONS.contains ext then ⟨[], Outcome.returned, none⟩
  else
    match env.statSize with
    | none => ⟨[], Outcome.returned, none⟩
    | some byteSize =>
      if byteSize > env.config.maxFileSizeBytes then ⟨[], Outcome.returned, none⟩
      else
        let fileNameHash := hashString fileName
        let sourceFileName := "sha256:" ++ fileNameHash
        -- Step 1: create the run as queued (a throw is caught and leaves runId null)
        let (ev1, runId) :=
          match env.createRunResult with
          | some id =>
              ([Ev.createRun sourceFileName byteSize "queued",
                Ev.appendLog (some id) "file_detected" "info"
                  (some (Jval.obj [("byteSize", Jval.num byteSize)]))], some id)
          | none => ([Ev.createRun sourceFileName byteSize "queued"], none)
        -- Step 2: transition to processing (a rejected PATCH is caught here)
        let ev2 :=
          match runId with
          | some id =>
              Ev.updateRun id { status := some "processing" } ::
                (if env.updateOk 0 then [Ev.appendLog (some id) "anonymize_started" "info" none]
                 else [])
          | none => []
        let pre := ev1 ++ ev2
        match env.readResult with
        | none =>
            let (evs, oc) := failBranch env 1 runId "READ_ERROR" "Could not read file"
            ⟨pre ++ evs, oc, none⟩
        | some raw =>
          match env.parseChatLog raw with
          | none =>
              let (evs, oc) := failBranch env 1 runId "INVALID_SCHEMA" "Invalid schema"
              ⟨pre ++ evs, oc, none⟩
          | some chatLog =>
            let ops := buildAnonymizers env.config.anonymizationOperator
            let (evL, res) := anonymizeLoop env ops chatLog.messages [] []
            match res with
            | Except.error m =>
                let (evs, oc) := failBranch env 1 runId "PRESIDIO_ERROR" ("Presidio error: " ++ m)
                ⟨pre ++ evL ++ evs, oc, none⟩
            | Except.ok (anonymizedMessages, presidioStats) =>
                let result : AnonymizationResult :=
                  ⟨fileNameHash, byteSize, env.nowIsoStr, anonymizedMessages, chatLog.metadata⟩
                match runId with
                | some id =>
                    let evM := Ev.updateRun id
                      { status := some "anonymized", presidioStats := some presidioStats }
                    if env.updateOk 1 then
                      afterAnonymized env runId result (pre ++ evL ++
                        [evM, Ev.appendLog (some id) "anonymize_succeeded" "info"
                          (some (Jval.obj [("entityCount", Jval.num (statsSum presidioStats))]))])
                    else
                      -- this PATCH is not wrapped in try/catch: a rejection
                      -- escapes processFile before delivery
                      ⟨pre ++ evL ++ [evM], Outcome.threw (env.updateErrMsg 1), some result⟩
                | none => afterAnonymized env none result (pre ++ evL)

/-! ## Multi-target delivery (step 4 "Deliver" of the multi-target worker
processor, with `fetchDeliveryTargets`, `callTarget` and
`deliverToTargetUrl`) -/
/-- Oracle environment for the delivery step of the multi-target processor. -/
structure MTEnv where
  /-- `GET /api/targets`: `none` = the fetch threw; otherwise `(json.ok, json.data)`. -/
  targetsFetch : Option (Bool × List DeliveryTarget)
  /-- The n-th target `fetch` (0-based, in call order): transport error
  message, or `(res.ok, res.status)`. -/
  httpAt : Nat → Except String (Bool × Nat)
  /-- Whether the n-th `updateRun` call of the whole run resolves.  The
  delivery step issues calls 2 and 3 (after `processing` and `anonymized`). -/
  updateOk : Nat → Bool
  /-- The exception message of a rejected n-th `updateRun` call. -/
  updateErrMsg : Nat → String
  /-- The `TARGET_URL` environment variable (`""` = unset). -/
  targetUrl : String
  /-- The legacy fallback `fetch` outcome. -/
  legacyFetch : Except String (Bool × Nat)
  /-- Successive `Date.now()` readings of the run (0 = run start, 1 = delivery start). -/
  timeAt : Nat → Int
  /-- `deleteAfterFailure` from the worker configuration. -/
  deleteAfterFailure : Bool
  /-- The path of the file being processed. -/
  filePath : String

/-- `fetchDeliveryTargets()`: the enabled targets in API order, or `[]` when
the call fails or reports `ok: false`. -/
def fetchDeliveryTargets (env : MTEnv) : List DeliveryTarget :=
  match env.targetsFetch with
  | some (ok, data) => if ok then data.filter (fun t => t.enabled) else []
  | none => []

/-- The `for (const target of targets) statusCode = await callTarget(...)`
loop: call each target sequentially, keep the last status, and throw out of
the loop on the first failing call (`Delivery target "<name>" HTTP <status>`
on a non-2xx response). -/
def callTargetsLoop (env : MTEnv) (result : AnonymizationResult) :
    List DeliveryTarget → Nat → Option Nat → List Ev × Except String (Option Nat)
  | [], _, statusCode => ([], Except.ok statusCode)
  | t :: rest, n, _ =>
      let ev := Ev.callTarget t.name (callTargetRequest t result).url
      match env.httpAt n with
      | Except.error m => ([ev], Except.error m)
      | Except.ok (ok, status) =>
          if ok then
            let (evs, r) := callTargetsLoop env result rest (n + 1) (some status)
            (ev :: evs, r)
          else ([ev], Except.error ("Delivery target \"" ++ t.name ++ "\" HTTP " ++ toString status))

/-- `deliverToTargetUrl(payload)` of the multi-target processor: the legacy
env-var fallback, with the loopback rewrite applied to `TARGET_URL`. -/
def deliverToTargetUrlMT (env : MTEnv) : List Ev × Except String (Option Nat) :=
  if env.targetUrl = "" then ([], Except.ok none)
  else
    ([Ev.httpDeliver (normalizeLocalTargetUrl env.targetUrl)],
     match env.legacyFetch with
     | Except.error m => Except.error m
     | Except.ok (ok, status) =>
         if ok then Except.ok (some status)
         else Except.error ("Delivery target HTTP " ++ toString status))

/-- The delivery `catch` branch of the multi-target processor (identical in
shape to the legacy one). -/
def deliveryFailBranchMT (env : MTEnv) (uIdx tIdx : Nat) (runId : Option String)
    (msg : String) : List Ev × Outcome :=
  let unlinkEvs := if env.deleteAfterFailure then [Ev.unlink env.filePath] else []
  match runId with
  | some id =>
      let ev := Ev.updateRun id
        { status := some "failed", errorCode := some "DELIVERY_ERROR",
          errorMessageSafe := some ("Delivery error: " ++ msg),
          deliveryDurationMs := some (env.timeAt tIdx - env.timeAt 1),
          durationMs := some (env.timeAt (tIdx + 1) - env.timeAt 0) }
      if env.updateOk uIdx then
        (ev :: Ev.appendLog (some id) "run_failed" "error"
          (some (Jval.obj [("errorCode", Jval.str "DELIVERY_ERROR")])) :: unlinkEvs, Outcome.returned)
      else ([ev], Outcome.threw (env.updateErrMsg uIdx))
  | none => (unlinkEvs, Outcome.returned)

/-- Step 4 "Deliver" of the multi-target processor (`delivery_started`, the
target loop or the legacy fallback, and the `delivered` / `DELIVERY_ERROR`
run update).  Cleanup (step 5) follows only on success and is not part of
this step. -/
def deliveryStep15 (env : MTEnv) (runId : Option String) (result : AnonymizationResult) :
    List Ev × Outcome :=
  let acc :=
    match runId with
    | some id => [Ev.appendLog (some id) "delivery_started" "info" none]
    | none => []
  let targets := fetchDeliveryTargets env
  let (evD, dres) :=
    if targets.length > 0 then callTargetsLoop env result targets 0 none
    else deliverToTargetUrlMT env
  match dres with
  | Except.ok statusCode =>
      let deliveryDurationMs := env.timeAt 2 - env.timeAt 1
      match runId with
      | some id =>
          let evU := Ev.updateRun id
            { status := some "delivered", deliveryStatusCode := statusCode,
              deliveryDurationMs := some deliveryDurationMs,
              durationMs := some (env.timeAt 3 - env.timeAt 0) }
          if env.updateOk 2 then
            (acc ++ evD ++ [evU, Ev.appendLog (some id) "delivery_succeeded" "info"
              (some (Jval.obj [("statusCode", optNatJval statusCode),
                ("deliveryDurationMs", Jval.num deliveryDurationMs)]))], Outcome.returned)
          else
            let (evs, oc) := deliveryFailBranchMT env 3 4 runId (env.updateErrMsg 2)
            (acc ++ evD ++ evU :: evs, oc)
      | none => (acc ++ evD, Outcome.returned)
  | Except.error m =>
      let (evs, oc) := deliveryFailBranchMT env 2 2 runId m
      (acc ++ evD ++ evs, oc)

/-! ## Concrete fixtures used by witnesses and counterexamples -/
/-- A worker configuration with the safe defaults. -/
def cfg0 : WorkerConfig :=
  { maxFileSizeBytes := MAX_FILE_SIZE_BYTES, deleteAfterSuccess := false,
    deleteAfterFailure := false, anonymizationOperator := AnonymizationOperator.replace,
    analysisServiceUrl := none, analysisServiceApiKey := none,
    analysisServiceSentimentEnabled := false, analysisServiceToxicityEnabled := false,
    analysisServiceLanguageCode := "en", analysisServiceModel := none,
    analysisServiceChannel := none, analysisServiceTags := none }

/-- A one-message chat log. -/
def chat1 : ChatLog := ⟨none, [⟨"m1", Role.user, "hello", none⟩], none⟩

/-- A baseline environment: a small valid upload, a reachable control plane,
clean Presidio results, no delivery target configured. -/
def env0 : Env :=
  { filePath := "/uploads/chat.json"
    config := cfg0
    statSize := some 120
    createRunResult := some "run-1"
    updateOk := fun _ => true
    updateErrMsg := fun _ => "fetch failed"
    readResult := some "raw"
    parseChatLog := fun _ => some chat1
    analyzeRes := fun _ => Except.ok []
    anonymizeRes := fun _ _ _ => Except.ok ""
    language := "en"
    targetUrl := ""
    deliverFetch := Except.ok (true, 200)
    unlinkOk := true
    timeAt := fun _ => 0
    nowIsoStr := "2024-01-01T00:00:00.000Z" }

/-- A result without metadata, used by the rendering witnesses. -/
def resW : AnonymizationResult :=
  ⟨"abc", 128, "2024-01-01T00:00:00.000Z", [⟨"m1", Role.user, "hello", none, 0⟩], none⟩

def isKnownVar (s : String) : Bool :=
  s == "messages" || s == "source_file_hash" || s == "processed_at" ||
  s == "byte_size" || s == "metadata"

def refName (s : String) : String := strDropRight (strDrop s 2) 1

def isRefShape (s : String) : Bool := strStartsWith s "$\x7b" && strEndsWith s "\x7d"

def isVarRef (s : String) : Bool := isRefShape s && isKnownVar (refName s)

/-- Whether the replacer substitutes the string `s`: it has the placeholder
shape and its name is found by `varName in vars` — as a declared template
variable or through the prototype chain. -/
def isSubstRef (s : String) : Bool :=
  isRefShape s && (isKnownVar (refName s) || isInheritedName (refName s))

mutual
def refFree : Jval → Bool
  | Jval.str s => !(isSubstRef s)
  | Jval.arr xs => refFreeArr xs
  | Jval.obj kvs => refFreeObj kvs
  | _ => true
def refFreeArr : List Jval → Bool
  | [] => true
  | x :: xs => refFree x && refFreeArr xs
def refFreeObj : List (String × Jval) → Bool
  | [] => true
  | kv :: kvs => refFree kv.2 && refFreeObj kvs
end

def resDeep : AnonymizationResult :=
  ⟨"abc", 7, "t", [⟨"m1", Role.user, "$\x7bbyte_size\x7d", none, 0⟩], none⟩

def updateStatuses (trace : List Ev) : List String :=
  trace.filterMap (fun ev =>
    match ev with
    | Ev.updateRun _ f => f.status
    | _ => none)

def isPipelineStepEv : Ev → Bool
  | Ev.presidioAnalyze _ _ => true
  | Ev.presidioAnonymize _ _ _ => true
  | Ev.analysisCall _ => true
  | Ev.httpDeliver _ => true
  | Ev.callTarget _ _ => true
  | Ev.unlink _ => true
  | _ => false

def env4 : Env := { env0 with parseChatLog := fun _ => none }

def isUpdateRunEv : Ev → Bool
  | Ev.updateRun _ _ => true
  | _ => false

def env8 : Env :=
  { env0 with
    updateOk := fun k => k != 1
    targetUrl := "http://t/" }

def env8b : Env := { env8 with updateOk := fun _ => true }

def envN : Env := { env0 with createRunResult := none, targetUrl := "http://t/" }

def envS : Env := { env0 with updateOk := fun k => k != 0 }

def errorMessageOk (f : RunUpdate) : Prop :=
  (f.errorCode = some "READ_ERROR" → f.errorMessageSafe = some "Could not read file") ∧
  (f.errorCode = some "INVALID_SCHEMA" → f.errorMessageSafe = some "Invalid schema") ∧
  (f.errorCode = some "PRESIDIO_ERROR" →
    ∃ m, f.errorMessageSafe = some ("Presidio error: " ++ m)) ∧
  (f.errorCode = some "DELIVERY_ERROR" →
    ∃ m, f.errorMessageSafe = some ("Delivery error: " ++ m)) ∧
  (f.errorCode = none → f.errorMessageSafe = none)

def updSafe (ev : Ev) : Prop :=
  ∀ id f, ev = Ev.updateRun id f → errorMessageOk f

def updSafeL (l : List Ev) : Prop :=
  ∀ ev ∈ l, updSafe ev

def env1p : Env :=
  { env0 with analyzeRes := fun _ => Except.error "ECONNREFUSED at john.smith@example.com" }

def env1q : Env :=
  { env0 with analyzeRes := fun _ => Except.error "socket hang up" }

def tgtA : DeliveryTarget :=
  { id := "t1", name := "alpha", url := "http://example.com/a", method := "POST",
    headers := [], auth := DeliveryTargetAuth.none, timeoutMs := 30000, retries := 0,
    backoffMs := 0, enabled := true, bodyTemplate := none }

def tgtB : DeliveryTarget :=
  { tgtA with id := "t2", name := "beta", url := "http://example.com/b" }

def tgtC : DeliveryTarget :=
  { tgtA with id := "t3", name := "gamma", enabled := false }

def envMT : MTEnv :=
  { targetsFetch := some (true, [tgtA, tgtC, tgtB])
    httpAt := fun _ => Except.ok (true, 200)
    updateOk := fun _ => true
    updateErrMsg := fun _ => "fetch failed"
    targetUrl := ""
    legacyFetch := Except.ok (true, 200)
    timeAt := fun _ => 0
    deleteAfterFailure := false
    filePath := "/uploads/chat.json" }

def envMT2 : MTEnv :=
  { envMT with
    httpAt := fun i => if i = 0 then Except.ok (true, 200) else Except.ok (false, 500) }

/-! ## Hex digest lemmas -/
theorem hexDigit_mem (n : Nat) : hexDigit n ∈ hexChars := by
  unfold hexDigit List.getD
  cases h : hexChars.get? n with
  | none => simp [hexChars, hexDigitsLow, hexDigitsHigh]
  | some c => simpa using List.get?_mem h

theorem hexWord32_mem (x : Nat) : ∀ c ∈ hexWord32 x, c ∈ hexChars := by
  intro c hc
  simp only [hexWord32, List.mem_cons, List.not_mem_nil, or_false] at hc
  rcases hc with h | h | h | h | h | h | h | h <;> exact h ▸ hexDigit_mem _

theorem hash8Hex_length (h : Hash8) : (hash8Hex h).length = 64 := by
  simp [hash8Hex, hexWord32]

theorem hash8Hex_mem (h : Hash8) : ∀ c ∈ hash8Hex h, c ∈ hexChars := by
  intro c hc
  simp only [hash8Hex, List.mem_append] at hc
  rcases hc with ((((((h1 | h1) | h1) | h1) | h1) | h1) | h1) | h1 <;>
    exact hexWord32_mem _ _ h1

theorem hashString_length (s : String) : (hashString s).length = 64 := by
  simp only [hashString, String.length]
  exact hash8Hex_length _

theorem hashString_hex (s : String) : ∀ c ∈ (hashString s).data, c ∈ hexChars := by
  simp only [hashString]
  exact hash8Hex_mem _

set_option maxHeartbeats 1000000 in
/-- On every run that passes the input gate, the trace starts with the
`createRun` call, whose `sourceFileName` is `sha256:` followed by the hex
digest of the file's base name. -/
theorem processFile_trace_head (env : Env) (n : Nat)
    (hext : ACCEPTED_EXTENSIONS.contains (toLowerStr (extname (basename env.filePath))) = true)
    (hstat : env.statSize = some n)
    (hsize : ¬ n > env.config.maxFileSizeBytes) :
    ∃ tail, (processFile env).trace =
      Ev.createRun ("sha256:" ++ hashString (basename env.filePath)) n "queued" :: tail := by
  unfold processFile afterAnonymized cleanupStep
  rw [hstat]
  simp only [hext, Bool.true_eq_false, not_true_eq_false, if_false, ite_false, ite_true,
    Bool.not_true, hsize]
  repeat' split
  all_goals simp only [List.append_assoc, List.cons_append, List.nil_append, List.append_nil]
  all_goals exact ⟨_, rfl⟩

/-- C2: for every detected file that passes the input gate, the run's
`sourceFileName` equals `"sha256:"` followed by the hex SHA-256 digest of the
file's base name (the content is never hashed); the digest is deterministic,
and the digest part always consists of exactly 64 lowercase hex characters,
so `sourceFileName` matches `^sha256:[0-9a-f]{64}$`. -/
theorem C2_sourceFileName_sha256 (env : Env) (n : Nat)
    (hext : ACCEPTED_EXTENSIONS.contains (toLowerStr (extname (basename env.filePath))) = true)
    (hstat : env.statSize = some n)
    (hsize : ¬ n > env.config.maxFileSizeBytes) :
    (∃ tail, (processFile env).trace =
      Ev.createRun ("sha256:" ++ hashString (basename env.filePath)) n "queued" :: tail) ∧
    (∀ a b : String, a = b → hashString a = hashString b) ∧
    (∀ s : String, (hashString s).length = 64 ∧ ∀ c ∈ (hashString s).data, c ∈ hexChars) :=
  ⟨processFile_trace_head env n hext hstat hsize,
   fun _ _ h => by rw [h],
   fun s => ⟨hashString_length s, hashString_hex s⟩⟩

/-- Witness for C2 at the baseline environment. -/
theorem C2_sourceFileName_sha256_witness :
    (ACCEPTED_EXTENSIONS.contains (toLowerStr (extname (basename env0.filePath))) = true) ∧
    env0.statSize = some 120 ∧ (¬ 120 > env0.config.maxFileSizeBytes) ∧
    ((∃ tail, (processFile env0).trace =
      Ev.createRun ("sha256:" ++ hashString (basename env0.filePath)) 120 "queued" :: tail) ∧
    (∀ a b : String, a = b → hashString a = hashString b) ∧
    (∀ s : String, (hashString s).length = 64 ∧ ∀ c ∈ (hashString s).data, c ∈ hexChars)) :=
  ⟨by decide, rfl, by decide,
   C2_sourceFileName_sha256 env0 120 (by decide) rfl (by decide)⟩

/-- C7: the pre-dispatch normalization rewrites the hosts `localhost`,
`127.0.0.1` and `::1` to the container-visible alias `host.docker.internal`
(keeping scheme, port and path), leaves every non-loopback URL unchanged
(`http://localhost:5000/x` becomes the container-alias equivalent, a
non-loopback URL passes through), and is applied to the target URL on both
the real delivery path (`callTarget`) and the test-call path. -/
theorem C7_loopback_normalization :
    (∀ u : UrlParts, isLoopbackHost u.hostname = false → rewriteLoopback u = u) ∧
    (∀ u : UrlParts, isLoopbackHost u.hostname = true →
      (rewriteLoopback u).hostname = "host.docker.internal" ∧
      (rewriteLoopback u).scheme = u.scheme ∧
      (rewriteLoopback u).port = u.port ∧
      (rewriteLoopback u).path = u.path) ∧
    normalizeLocalTargetUrl "http://localhost:5000/x" = "http://host.docker.internal:5000/x" ∧
    normalizeLocalTargetUrl "http://127.0.0.1:5000/x" = "http://host.docker.internal:5000/x" ∧
    normalizeLocalTargetUrl "http://[::1]:5000/x" = "http://host.docker.internal:5000/x" ∧
    normalizeLocalTargetUrl "http://example.com:8080/path" = "http://example.com:8080/path" ∧
    (∀ (t : DeliveryTarget) (r : AnonymizationResult),
      (callTargetRequest t r).url = normalizeLocalTargetUrl t.url) ∧
    (∀ (t : DeliveryTarget) (r : AnonymizationResult),
      (testCallRequest t r).url = normalizeLocalTargetUrl t.url) := by
  refine ⟨?_, ?_, by decide, by decide, by decide, by decide, fun t r => rfl, fun t r => rfl⟩
  · intro u h
    simp [rewriteLoopback, h]
  · intro u h
    simp [rewriteLoopback, h]

/-- Witness for C7 on a non-loopback and a loopback URL. -/
theorem C7_loopback_normalization_witness :
    (isLoopbackHost (UrlParts.mk "http" "example.com" (some "80") "/x").hostname = false ∧
      rewriteLoopback (UrlParts.mk "http" "example.com" (some "80") "/x") =
        UrlParts.mk "http" "example.com" (some "80") "/x") ∧
    (isLoopbackHost (UrlParts.mk "http" "localhost" (some "5000") "/x").hostname = true ∧
      (rewriteLoopback (UrlParts.mk "http" "localhost" (some "5000") "/x")).hostname =
        "host.docker.internal") :=
  ⟨⟨by decide, C7_loopback_normalization.1 _ (by decide)⟩,
   ⟨by decide, (C7_loopback_normalization.2.1 _ (by decide)).1⟩⟩

/-! ## Rendering lemmas (C6, C10) -/
/-- The replacer maps the `$\x7bmetadata\x7d` leaf to the result's metadata
(the key is always in `vars`, its value may be `undefined`). -/
theorem replaceVal_metadata (result : AnonymizationResult) :
    replaceVal (renderVars result) (Jval.str "$\x7bmetadata\x7d") = result.metadata := rfl

/-- With no metadata on the result, serializing the `$\x7bmetadata\x7d` leaf
yields `undefined`. -/
theorem serializeJ_metadata_ref (result : AnonymizationResult)
    (hmeta : result.metadata = none) (fuel : Nat) :
    serializeJ (renderVars result) fuel (Jval.str "$\x7bmetadata\x7d") = none := by
  cases fuel with
  | zero => rfl
  | succ fuel => simp only [serializeJ, replaceVal_metadata, hmeta]

/-- One serialization step on an object: entries whose value serializes to
`undefined` are dropped. -/
theorem serializeJ_obj_unfold (vars : String → Option (Option Jval)) (fuel : Nat)
    (kvs : List (String × Jval)) :
    serializeJ vars (fuel + 1) (Jval.obj kvs) =
      some (Jval.obj (kvs.filterMap
        (fun kv => (serializeJ vars fuel kv.2).map (fun w => (kv.1, w))))) := rfl

/-- The rendering fuel is a successor. -/
theorem renderFuel_succ (template : List (String × Jval)) (result : AnonymizationResult) :
    renderFuel template result = (jsize (Jval.obj template) + varsSize result) + 1 := rfl

/-- C10: when a template string leaf is `$\x7bmetadata\x7d` and the result has
no metadata (the only known variable whose value can be `undefined`), the
rendered body omits that key entirely — it is neither kept as the literal
placeholder nor rendered as `null`. -/
theorem C10_undefined_variable_omits_key (template : List (String × Jval))
    (result : AnonymizationResult) (k : String)
    (hmeta : result.metadata = none)
    (hk : ∀ v, (k, v) ∈ template → v = Jval.str "$\x7bmetadata\x7d") :
    (∀ kvs, renderedBodyJson template result = some (Jval.obj kvs) → ∀ w, (k, w) ∉ kvs) ∧
    renderBodyTemplate [("a", Jval.str "$\x7bmetadata\x7d"), ("b", Jval.str "literal")] resW
      = "\x7b\"b\":\"literal\"\x7d" := by
  constructor
  · intro kvs hr w hmem
    rw [renderedBodyJson, renderFuel_succ, serializeJ_obj_unfold] at hr
    have hkvs : kvs = template.filterMap
        (fun kv => (serializeJ (renderVars result) (jsize (Jval.obj template) + varsSize result) kv.2).map
          (fun w => (kv.1, w))) := by
      injection hr with h
      injection h with h
      exact h.symm
    rw [hkvs] at hmem
    obtain ⟨kv, hkvmem, hkveq⟩ := List.mem_filterMap.mp hmem
    obtain ⟨w', hw', heq⟩ := Option.map_eq_some'.mp hkveq
    cases heq
    have hkv2 : kv.2 = Jval.str "$\x7bmetadata\x7d" := hk kv.2 (by
      have hpe : (kv.1, kv.2) = kv := rfl
      rw [hpe]
      exact hkvmem)
    rw [hkv2, serializeJ_metadata_ref result hmeta] at hw'
    exact Option.noConfusion hw'
  · decide

/-- Witness for C10 on the two-key template. -/
theorem C10_undefined_variable_omits_key_witness :
    resW.metadata = none ∧
    (∀ v, ("a", v) ∈ [("a", Jval.str "$\x7bmetadata\x7d"), ("b", Jval.str "literal")] →
      v = Jval.str "$\x7bmetadata\x7d") ∧
    ((∀ kvs, renderedBodyJson [("a", Jval.str "$\x7bmetadata\x7d"), ("b", Jval.str "literal")] resW
        = some (Jval.obj kvs) → ∀ w, ("a", w) ∉ kvs) ∧
      renderBodyTemplate [("a", Jval.str "$\x7bmetadata\x7d"), ("b", Jval.str "literal")] resW
        = "\x7b\"b\":\"literal\"\x7d") :=
  ⟨rfl, by
    intro v hv
    rcases List.mem_cons.mp hv with h | h
    · exact (Prod.mk.injEq _ _ _ _ ▸ h).2
    · rcases List.mem_cons.mp h with h2 | h2
      · exact absurd ((Prod.mk.injEq _ _ _ _ ▸ h2).1) (by decide)
      · exact absurd h2 (List.not_mem_nil _),
   C10_undefined_variable_omits_key _ resW "a" rfl (by
    intro v hv
    rcases List.mem_cons.mp hv with h | h
    · exact (Prod.mk.injEq _ _ _ _ ▸ h).2
    · rcases List.mem_cons.mp h with h2 | h2
      · exact absurd ((Prod.mk.injEq _ _ _ _ ▸ h2).1) (by decide)
      · exact absurd h2 (List.not_mem_nil _))⟩

theorem renderVars_unknown (result : AnonymizationResult) (n : String)
    (h : isKnownVar n = false) (hi : isInheritedName n = false) :
    renderVars result n = none := by
  simp only [isKnownVar, Bool.or_eq_false_iff, beq_eq_false_iff_ne, ne_eq] at h
  obtain ⟨⟨⟨⟨h1, h2⟩, h3⟩, h4⟩, h5⟩ := h
  simp only [isInheritedName, Bool.or_eq_false_iff, beq_eq_false_iff_ne, ne_eq] at hi
  obtain ⟨hi1, hi2⟩ := hi
  have hi1' : ¬ n ∈ protoFnNames := by simpa using hi1
  simp [renderVars, h1, h2, h3, h4, h5, hi1', hi2]

theorem replaceVal_not_ref (result : AnonymizationResult) (s : String)
    (h : isSubstRef s = false) :
    replaceVal (renderVars result) (Jval.str s) = some (Jval.str s) := by
  simp only [isSubstRef, isRefShape, Bool.and_eq_false_iff] at h
  rcases h with h | h
  · simp only [replaceVal]
    rcases h with h | h <;> simp [h]
  · simp only [Bool.or_eq_false_iff] at h
    obtain ⟨hk, hi⟩ := h
    simp only [replaceVal]
    split
    · rw [show strDropRight (strDrop s 2) 1 = refName s from rfl,
        renderVars_unknown result _ hk hi]
    · rfl

theorem jsize_pos (v : Jval) : 1 ≤ jsize v := by
  cases v <;> simp [jsize]

theorem jsize_le_jsizeArr {x : Jval} : ∀ {xs : List Jval}, x ∈ xs → jsize x ≤ jsizeArr xs := by
  intro xs
  induction xs with
  | nil => intro h; exact absurd h (List.not_mem_nil _)
  | cons y ys ih =>
      intro h
      rcases List.mem_cons.mp h with h | h
      · subst h; simp [jsizeArr, Nat.le_add_right]
      · calc jsize x ≤ jsizeArr ys := ih h
          _ ≤ jsize y + jsizeArr ys := Nat.le_add_left _ _
          _ = jsizeArr (y :: ys) := rfl

theorem jsize_le_jsizeObj {kv : String × Jval} : ∀ {kvs : List (String × Jval)},
    kv ∈ kvs → jsize kv.2 ≤ jsizeObj kvs := by
  intro kvs
  induction kvs with
  | nil => intro h; exact absurd h (List.not_mem_nil _)
  | cons y ys ih =>
      intro h
      rcases List.mem_cons.mp h with h | h
      · subst h; simp [jsizeObj, Nat.le_add_right]
      · calc jsize kv.2 ≤ jsizeObj ys := ih h
          _ ≤ jsize y.2 + jsizeObj ys := Nat.le_add_left _ _
          _ = jsizeObj (y :: ys) := rfl

theorem refFreeArr_mem {x : Jval} : ∀ {xs : List Jval}, refFreeArr xs = true → x ∈ xs →
    refFree x = true := by
  intro xs
  induction xs with
  | nil => intro _ h; exact absurd h (List.not_mem_nil _)
  | cons y ys ih =>
      intro hf h
      rw [refFreeArr] at hf
      rcases List.mem_cons.mp h with h | h
      · subst h; exact (Bool.and_eq_true_iff.mp hf).1
      · exact ih (Bool.and_eq_true_iff.mp hf).2 h

theorem refFreeObj_mem {kv : String × Jval} : ∀ {kvs : List (String × Jval)},
    refFreeObj kvs = true → kv ∈ kvs → refFree kv.2 = true := by
  intro kvs
  induction kvs with
  | nil => intro _ h; exact absurd h (List.not_mem_nil _)
  | cons y ys ih =>
      intro hf h
      rw [refFreeObj] at hf
      rcases List.mem_cons.mp h with h | h
      · subst h; exact (Bool.and_eq_true_iff.mp hf).1
      · exact ih (Bool.and_eq_true_iff.mp hf).2 h

theorem map_id_on {α : Type} {f : α → α} : ∀ {xs : List α}, (∀ x ∈ xs, f x = x) →
    xs.map f = xs := by
  intro xs
  induction xs with
  | nil => intro _; rfl
  | cons y ys ih =>
      intro h
      simp only [List.map_cons, h y (List.mem_cons_self _ _), List.cons.injEq, true_and]
      exact ih (fun x hx => h x (List.mem_cons_of_mem _ hx))

theorem filterMap_some_on {α : Type} {g : α → Option α} : ∀ {xs : List α},
    (∀ x ∈ xs, g x = some x) → xs.filterMap g = xs := by
  intro xs
  induction xs with
  | nil => intro _; rfl
  | cons y ys ih =>
      intro h
      rw [List.filterMap_cons, h y (List.mem_cons_self _ _)]
      rw [ih (fun x hx => h x (List.mem_cons_of_mem _ hx))]

theorem serializeJ_refFree (result : AnonymizationResult) :
    ∀ fuel v, refFree v = true → jsize v ≤ fuel →
    serializeJ (renderVars result) fuel v = some v := by
  intro fuel
  induction fuel with
  | zero =>
      intro v _ hsz
      exact absurd (Nat.le_trans (jsize_pos v) hsz) (by simp)
  | succ fuel ih =>
      intro v hf hsz
      cases v with
      | null => rfl
      | bool b => rfl
      | num n => rfl
      | str s =>
          rw [refFree, Bool.not_eq_true'] at hf
          simp only [serializeJ, replaceVal_not_ref result s hf]
      | arr xs =>
          have hkids : ∀ x ∈ xs, (serializeJ (renderVars result) fuel x).getD Jval.null = x := by
            intro x hx
            have h1 : refFree x = true := refFreeArr_mem (by rw [refFree] at hf; exact hf) hx
            have h2 : jsize x ≤ fuel := by
              have := jsize_le_jsizeArr hx
              have hs : 1 + jsizeArr xs ≤ fuel + 1 := by
                rw [jsize] at hsz; omega
              omega
            rw [ih x h1 h2]
            rfl
          simp only [serializeJ, replaceVal]
          rw [map_id_on hkids]
      | obj kvs =>
          have hkids : ∀ kv ∈ kvs,
              (serializeJ (renderVars result) fuel kv.2).map (fun w => (kv.1, w)) = some kv := by
            intro kv hkv
            have h1 : refFree kv.2 = true := refFreeObj_mem (by rw [refFree] at hf; exact hf) hkv
            have h2 : jsize kv.2 ≤ fuel := by
              have := jsize_le_jsizeObj hkv
              have hs : 1 + jsizeObj kvs ≤ fuel + 1 := by
                rw [jsize] at hsz; omega
              omega
            rw [ih kv.2 h1 h2]
            rfl
          simp only [serializeJ, replaceVal]
          rw [filterMap_some_on hkids]

theorem serializeJ_step (result : AnonymizationResult) (fuel : Nat) (w v : Jval)
    (hrep : replaceVal (renderVars result) w = some v)
    (hf : refFree v = true) (hsz : jsize v ≤ fuel + 1) :
    serializeJ (renderVars result) (fuel + 1) w = some v := by
  cases v with
  | null => simp only [serializeJ, hrep]
  | bool b => simp only [serializeJ, hrep]
  | num n => simp only [serializeJ, hrep]
  | str s => simp only [serializeJ, hrep]
  | arr xs =>
      have hkids : ∀ x ∈ xs, (serializeJ (renderVars result) fuel x).getD Jval.null = x := by
        intro x hx
        have h1 : refFree x = true := refFreeArr_mem (by rw [refFree] at hf; exact hf) hx
        have h2 : jsize x ≤ fuel := by
          have := jsize_le_jsizeArr hx
          have hs : 1 + jsizeArr xs ≤ fuel + 1 := by rw [jsize] at hsz; omega
          omega
        rw [serializeJ_refFree result fuel x h1 h2]
        rfl
      simp only [serializeJ, hrep]
      rw [map_id_on hkids]
  | obj kvs =>
      have hkids : ∀ kv ∈ kvs,
          (serializeJ (renderVars result) fuel kv.2).map (fun w => (kv.1, w)) = some kv := by
        intro kv hkv
        have h1 : refFree kv.2 = true := refFreeObj_mem (by rw [refFree] at hf; exact hf) hkv
        have h2 : jsize kv.2 ≤ fuel := by
          have := jsize_le_jsizeObj hkv
          have hs : 1 + jsizeObj kvs ≤ fuel + 1 := by rw [jsize] at hsz; omega
          omega
        rw [serializeJ_refFree result fuel kv.2 h1 h2]
        rfl
      simp only [serializeJ, hrep]
      rw [filterMap_some_on hkids]

theorem refString_data (n : String) :
    ("$\x7b" ++ n ++ "\x7d").data = '$' :: '\x7b' :: (n.data ++ ['\x7d']) := by
  simp only [String.data_append]
  rfl

theorem refName_wrap (n : String) : refName ("$\x7b" ++ n ++ "\x7d") = n := by
  simp only [refName, strDrop, strDropRight, refString_data]
  simp only [List.drop_succ_cons, List.drop_zero, List.length_append, List.length_cons,
    List.length_nil]
  rw [show n.data.length + (0 + 1) - 1 = n.data.length by omega]
  rw [List.take_left]

theorem isRefShape_wrap (n : String) : isRefShape ("$\x7b" ++ n ++ "\x7d") = true := by
  simp only [isRefShape, strStartsWith, strEndsWith, refString_data]
  simp [List.isPrefixOf, List.isSuffixOf, List.reverse_append]

theorem replaceVal_ref (result : AnonymizationResult) (n : String) (ov : Option Jval)
    (h : renderVars result n = some ov) :
    replaceVal (renderVars result) (Jval.str ("$\x7b" ++ n ++ "\x7d")) = ov := by
  have hshape := isRefShape_wrap n
  rw [isRefShape] at hshape
  simp only [replaceVal, hshape, if_true]
  rw [show strDropRight (strDrop ("$\x7b" ++ n ++ "\x7d") 2) 1 =
    refName ("$\x7b" ++ n ++ "\x7d") from rfl, refName_wrap, h]

theorem renderedBodyJson_shape (template : List (String × Jval)) (result : AnonymizationResult) :
    renderedBodyJson template result = some (Jval.obj (template.filterMap (fun kv =>
      (serializeJ (renderVars result) (jsize (Jval.obj template) + varsSize result) kv.2).map
        (fun w => (kv.1, w))))) := by
  rw [renderedBodyJson, renderFuel_succ, serializeJ_obj_unfold]

theorem innerFuel_succ (template : List (String × Jval)) (result : AnonymizationResult) :
    jsize (Jval.obj template) + varsSize result = (jsizeObj template + varsSize result) + 1 := by
  rw [jsize]
  omega

theorem serializeJ_unmatched (result : AnonymizationResult) (fuel : Nat) (s : String)
    (h : isSubstRef s = false) :
    serializeJ (renderVars result) (fuel + 1) (Jval.str s) = some (Jval.str s) := by
  simp only [serializeJ, replaceVal_not_ref result s h]

/-- C6 (amended): template rendering replaces a string leaf `"$\x7bvar\x7d"` of a
known variable anywhere in the template by the variable's JSON value, and a
placeholder is left as the literal string only when its name is neither a
declared variable nor an inherited `Object.prototype` property — the
replacer's `varName in vars` walks the prototype chain, so `toString` is
substituted with the inherited function (and the key dropped) and
`__proto__` renders as `\x7b\x7d`; moreover, because the `JSON.stringify`
replacer visits substituted values too, placeholder-shaped strings *inside*
a substituted value (e.g. inside `metadata`) are rewritten as well, which
refutes the original claim that values are inserted as-is. -/
theorem C6_render_amended :
    renderBodyTemplate [("a", Jval.str "$\x7bsource_file_hash\x7d"), ("b", Jval.str "literal")]
      resW = "\x7b\"a\":\"abc\",\"b\":\"literal\"\x7d" ∧
    (∀ result : AnonymizationResult, renderVars result "messages" =
      some (some (Jval.arr (result.messages.map messageVarJval)))) ∧
    messageVarJval ⟨"id1", Role.user, "hi", some "ts", 3⟩ =
      Jval.obj [("role", Jval.str "user"), ("content", Jval.str "hi"),
        ("timestamp", Jval.str "ts")] ∧
    (∀ (template : List (String × Jval)) (result : AnonymizationResult) (k s : String),
      (k, Jval.str s) ∈ template → isRefShape s = true → isKnownVar (refName s) = false →
      isInheritedName (refName s) = false →
      ∃ kvs, renderedBodyJson template result = some (Jval.obj kvs) ∧ (k, Jval.str s) ∈ kvs) ∧
    (∀ (template : List (String × Jval)) (result : AnonymizationResult) (k n : String)
      (v : Jval),
      (k, Jval.str ("$\x7b" ++ n ++ "\x7d")) ∈ template →
      renderVars result n = some (some v) → refFree v = true → jsize v ≤ varsSize result →
      ∃ kvs, renderedBodyJson template result = some (Jval.obj kvs) ∧ (k, v) ∈ kvs) ∧
    renderBodyTemplate [("a", Jval.str "$\x7btoString\x7d"), ("b", Jval.str "literal")]
      resW = "\x7b\"b\":\"literal\"\x7d" ∧
    renderBodyTemplate [("p", Jval.str "$\x7b__proto__\x7d")] resW =
      "\x7b\"p\":\x7b\x7d\x7d" := by
  refine ⟨by decide, fun result => rfl, rfl, ?_, ?_, by decide, by decide⟩
  · intro template result k s hmem hshape hunknown hnotinh
    refine ⟨_, renderedBodyJson_shape template result, ?_⟩
    apply List.mem_filterMap.mpr
    refine ⟨(k, Jval.str s), hmem, ?_⟩
    rw [innerFuel_succ, serializeJ_unmatched result _ s
      (by rw [isSubstRef, hshape, hunknown, hnotinh]; rfl)]
    rfl
  · intro template result k n v hmem hvar hfree hsz
    refine ⟨_, renderedBodyJson_shape template result, ?_⟩
    apply List.mem_filterMap.mpr
    refine ⟨(k, Jval.str ("$\x7b" ++ n ++ "\x7d")), hmem, ?_⟩
    rw [innerFuel_succ, serializeJ_step result _ _ v (replaceVal_ref result n (some v) hvar)
      hfree (by omega)]
    rfl

/-- C6 counterexample: a `metadata` object containing the string
`"$\x7bbyte_size\x7d"` is not inserted verbatim — the nested placeholder is
substituted inside the inserted value. -/
theorem C6_counterexample :
    renderedBodyJson [("a", Jval.str "$\x7bmessages\x7d")] resDeep =
      some (Jval.obj [("a", Jval.arr [Jval.obj [("role", Jval.str "user"),
        ("content", Jval.num 7)]])]) ∧
    Jval.arr (resDeep.messages.map messageVarJval) =
      Jval.arr [Jval.obj [("role", Jval.str "user"),
        ("content", Jval.str "$\x7bbyte_size\x7d")]] ∧
    renderedBodyJson [("a", Jval.str "$\x7bmessages\x7d")] resDeep ≠
      some (Jval.obj [("a", Jval.arr (resDeep.messages.map messageVarJval))]) := by
  refine ⟨rfl, rfl, ?_⟩
  intro h
  have h2 := congrArg (fun o => Option.map jsonToString o) h
  exact absurd h2 (by decide)

/-- C6 witness: the amended rendering theorem applied to a concrete template
and result. -/
theorem C6_render_amended_witness :
    (("u", Jval.str "$\x7bunknown\x7d") ∈ [("u", Jval.str "$\x7bunknown\x7d")] ∧
     isRefShape "$\x7bunknown\x7d" = true ∧ isKnownVar (refName "$\x7bunknown\x7d") = false ∧
     isInheritedName (refName "$\x7bunknown\x7d") = false ∧
     ∃ kvs, renderedBodyJson [("u", Jval.str "$\x7bunknown\x7d")] resW = some (Jval.obj kvs) ∧
       ("u", Jval.str "$\x7bunknown\x7d") ∈ kvs) ∧
    (("a", Jval.str ("$\x7b" ++ "source_file_hash" ++ "\x7d")) ∈
        [("a", Jval.str ("$\x7b" ++ "source_file_hash" ++ "\x7d"))] ∧
     renderVars resW "source_file_hash" = some (some (Jval.str "abc")) ∧
     refFree (Jval.str "abc") = true ∧ jsize (Jval.str "abc") ≤ varsSize resW ∧
     ∃ kvs, renderedBodyJson [("a", Jval.str ("$\x7b" ++ "source_file_hash" ++ "\x7d"))] resW
       = some (Jval.obj kvs) ∧ ("a", Jval.str "abc") ∈ kvs) :=
  ⟨⟨List.mem_cons_self _ _, by decide, by decide, by decide,
    C6_render_amended.2.2.2.1 _ resW "u" _ (List.mem_cons_self _ _) (by decide) (by decide)
      (by decide)⟩,
   ⟨List.mem_cons_self _ _, rfl, by decide, by decide,
    C6_render_amended.2.2.2.2.1 _ resW "a" "source_file_hash" (Jval.str "abc")
      (List.mem_cons_self _ _) rfl (by decide) (by decide)⟩⟩

theorem cleanupStep_payload (env : Env) (runId : Option String) (acc : List Ev)
    (result : AnonymizationResult) : (cleanupStep env runId acc result).payload = some result := by
  unfold cleanupStep
  repeat' split
  all_goals rfl

theorem afterAnonymized_payload (env : Env) (runId : Option String)
    (result : AnonymizationResult) (acc : List Ev) :
    (afterAnonymized env runId result acc).payload = some result := by
  unfold afterAnonymized cleanupStep
  repeat' split
  all_goals rfl

theorem anonymizeLoop_ok (env : Env) (ops : List (String × PresidioOperator))
    (F : ChatMessage → List PresidioFinding) (T : ChatMessage → String) :
    ∀ (msgs : List ChatMessage) (accM : List AnonymizedMessage) (accS : List (String × Nat)),
    (∀ m ∈ msgs, env.analyzeRes m.content = Except.ok (F m)) →
    (∀ m ∈ msgs, (F m).length > 0 → env.anonymizeRes m.content (F m) ops = Except.ok (T m)) →
    anonymizeLoop env ops msgs accM accS =
      (msgs.flatMap (fun m => Ev.presidioAnalyze m.content env.language ::
        (if (F m).length > 0 then [Ev.presidioAnonymize m.content (F m) ops] else [])),
       Except.ok (accM ++ msgs.map (fun m =>
          ⟨m.id, m.role, if (F m).length > 0 then T m else m.content, m.timestamp, (F m).length⟩),
        msgs.foldl (fun s m => bumpStats s (F m)) accS)) := by
  intro msgs
  induction msgs with
  | nil => intro accM accS _ _; simp [anonymizeLoop]
  | cons m rest ih =>
      intro accM accS hA hB
      have hAm : env.analyzeRes m.content = Except.ok (F m) := hA m (List.mem_cons_self _ _)
      by_cases hlen : (F m).length > 0
      · have hBm := hB m (List.mem_cons_self _ _) hlen
        simp only [anonymizeLoop, hAm, if_pos hlen, hBm]
        rw [ih (accM ++ [(⟨m.id, m.role, T m, m.timestamp, (F m).length⟩ : AnonymizedMessage)])
          (bumpStats accS (F m))
          (fun x hx => hA x (List.mem_cons_of_mem _ hx))
          (fun x hx h => hB x (List.mem_cons_of_mem _ hx) h)]
        simp only [List.flatMap_cons, List.map_cons, List.foldl_cons, if_pos hlen,
          List.append_assoc, List.cons_append, List.nil_append, List.singleton_append]
      · have hzero : (F m).length = 0 := by omega
        simp only [anonymizeLoop, hAm, if_neg hlen]
        rw [ih (accM ++ [(⟨m.id, m.role, m.content, m.timestamp, 0⟩ : AnonymizedMessage)])
          (bumpStats accS (F m))
          (fun x hx => hA x (List.mem_cons_of_mem _ hx))
          (fun x hx h => hB x (List.mem_cons_of_mem _ hx) h)]
        simp [List.flatMap_cons, List.map_cons, List.foldl_cons, hzero]

theorem foldl_bump_nil (accS : List (String × Nat)) :
    ∀ msgs : List ChatMessage,
      msgs.foldl (fun s (_ : ChatMessage) => bumpStats s []) accS = accS := by
  intro msgs
  induction msgs generalizing accS with
  | nil => rfl
  | cons m rest ih => exact ih accS

/-- C3: a message whose Presidio analysis returns zero findings is copied
into the output with its original content, `entities_found = 0`, and no
anonymize call is made for it; the message count is preserved. -/
theorem C3_zero_findings (env : Env) (chat : ChatLog) (n : Nat) (raw : String)
    (hext : ACCEPTED_EXTENSIONS.contains (toLowerStr (extname (basename env.filePath))) = true)
    (hstat : env.statSize = some n)
    (hsize : ¬ n > env.config.maxFileSizeBytes)
    (hread : env.readResult = some raw)
    (hparse : env.parseChatLog raw = some chat)
    (hfind : ∀ m ∈ chat.messages, env.analyzeRes m.content = Except.ok []) :
    (processFile env).payload = some
      ⟨hashString (basename env.filePath), n, env.nowIsoStr,
        chat.messages.map (fun m => ⟨m.id, m.role, m.content, m.timestamp, 0⟩),
        chat.metadata⟩ := by
  unfold processFile
  rw [hstat]
  simp only [hext, Bool.true_eq_false, not_true_eq_false, if_false, ite_false, ite_true,
    Bool.not_true, hsize, hread, hparse]
  rw [anonymizeLoop_ok env _ (fun _ => []) (fun m => m.content) chat.messages [] []
    hfind (fun m _ h => absurd h (by simp))]
  simp only [List.length_nil, gt_iff_lt, Nat.lt_irrefl, if_false, List.nil_append,
    foldl_bump_nil, ite_false]
  repeat' split
  all_goals first
    | rfl
    | exact afterAnonymized_payload _ _ _ _

/-- C3 witness: the theorem applied to the baseline one-message chat. -/
theorem C3_zero_findings_witness :
    (ACCEPTED_EXTENSIONS.contains (toLowerStr (extname (basename env0.filePath))) = true) ∧
    env0.statSize = some 120 ∧ (¬ 120 > env0.config.maxFileSizeBytes) ∧
    env0.readResult = some "raw" ∧ env0.parseChatLog "raw" = some chat1 ∧
    (∀ m ∈ chat1.messages, env0.analyzeRes m.content = Except.ok []) ∧
    (processFile env0).payload = some
      ⟨hashString (basename env0.filePath), 120, env0.nowIsoStr,
        chat1.messages.map (fun m => ⟨m.id, m.role, m.content, m.timestamp, 0⟩),
        chat1.metadata⟩ :=
  ⟨by decide, rfl, by decide, rfl, rfl, fun m _ => rfl,
   C3_zero_findings env0 chat1 120 "raw" (by decide) rfl (by decide) rfl rfl (fun m _ => rfl)⟩

theorem cleanupStep_trace (env : Env) (runId : Option String) (acc : List Ev)
    (result : AnonymizationResult) :
    ∃ t, (cleanupStep env runId acc result).trace = acc ++ t := by
  unfold cleanupStep
  repeat' split
  all_goals first
    | exact ⟨_, rfl⟩
    | exact ⟨[], by simp⟩

/-- C4: a file that reads correctly but fails chat-log schema validation
marks the run `failed` with `INVALID_SCHEMA`, appends `run_failed`, deletes
the source only when `deleteAfterFailure` is set, performs no Presidio or
delivery calls, and returns without throwing. -/
theorem C4_invalid_schema (env : Env) (n : Nat) (raw : String) (id : String)
    (hext : ACCEPTED_EXTENSIONS.contains (toLowerStr (extname (basename env.filePath))) = true)
    (hstat : env.statSize = some n)
    (hsize : ¬ n > env.config.maxFileSizeBytes)
    (hcr : env.createRunResult = some id)
    (hread : env.readResult = some raw)
    (hparse : env.parseChatLog raw = none)
    (hupd : ∀ k, env.updateOk k = true) :
    updateStatuses (processFile env).trace = ["processing", "failed"] ∧
    Ev.updateRun id { status := some "failed", errorCode := some "INVALID_SCHEMA",
                      errorMessageSafe := some "Invalid schema" } ∈ (processFile env).trace ∧
    Ev.appendLog (some id) "run_failed" "error"
      (some (Jval.obj [("errorCode", Jval.str "INVALID_SCHEMA")])) ∈ (processFile env).trace ∧
    (Ev.unlink env.filePath ∈ (processFile env).trace ↔ env.config.deleteAfterFailure = true) ∧
    (∀ ev ∈ (processFile env).trace, ev ≠ Ev.unlink env.filePath → isPipelineStepEv ev = false) ∧
    (processFile env).outcome = Outcome.returned ∧
    (processFile env).payload = none := by
  have htr : (processFile env).trace =
      [Ev.createRun ("sha256:" ++ hashString (basename env.filePath)) n "queued",
       Ev.appendLog (some id) "file_detected" "info" (some (Jval.obj [("byteSize", Jval.num n)])),
       Ev.updateRun id { status := some "processing" },
       Ev.appendLog (some id) "anonymize_started" "info" none,
       Ev.updateRun id { status := some "failed", errorCode := some "INVALID_SCHEMA",
                         errorMessageSafe := some "Invalid schema" },
       Ev.appendLog (some id) "run_failed" "error"
         (some (Jval.obj [("errorCode", Jval.str "INVALID_SCHEMA")]))] ++
      (if env.config.deleteAfterFailure then [Ev.unlink env.filePath] else []) := by
    unfold processFile failBranch
    rw [hstat]
    simp only [hext, Bool.true_eq_false, not_true_eq_false, if_false, ite_false, ite_true,
      Bool.not_true, hsize, hread, hparse, hcr, hupd 0, hupd 1, if_true]
    simp
  have hoc : (processFile env).outcome = Outcome.returned ∧ (processFile env).payload = none := by
    unfold processFile failBranch
    rw [hstat]
    simp only [hext, Bool.true_eq_false, not_true_eq_false, if_false, ite_false, ite_true,
      Bool.not_true, hsize, hread, hparse, hcr, hupd 0, hupd 1, if_true]
    constructor <;> trivial
  refine ⟨?_, ?_, ?_, ?_, ?_, hoc.1, hoc.2⟩
  · rw [htr]
    by_cases hd : env.config.deleteAfterFailure <;>
      simp [hd, updateStatuses]
  · rw [htr]; simp
  · rw [htr]; simp
  · rw [htr]
    by_cases hd : env.config.deleteAfterFailure <;> simp [hd]
  · rw [htr]
    intro ev hev hne
    by_cases hd : env.config.deleteAfterFailure
    · rw [if_pos hd] at hev
      simp only [List.cons_append, List.nil_append] at hev
      fin_cases hev <;> first | rfl | exact absurd rfl hne
    · rw [if_neg hd, List.append_nil] at hev
      fin_cases hev <;> rfl

/-- C4 witness: the schema-failure theorem applied to a concrete
environment whose parse step rejects. -/
theorem C4_invalid_schema_witness :
    (env4.statSize = some 120 ∧ (¬ 120 > env4.config.maxFileSizeBytes) ∧
      env4.createRunResult = some "run-1" ∧ env4.readResult = some "raw" ∧
      env4.parseChatLog "raw" = none ∧ (∀ k, env4.updateOk k = true)) ∧
    (updateStatuses (processFile env4).trace = ["processing", "failed"] ∧
      Ev.updateRun "run-1" { status := some "failed", errorCode := some "INVALID_SCHEMA",
                             errorMessageSafe := some "Invalid schema" } ∈
        (processFile env4).trace ∧
      Ev.appendLog (some "run-1") "run_failed" "error"
        (some (Jval.obj [("errorCode", Jval.str "INVALID_SCHEMA")])) ∈ (processFile env4).trace ∧
      (Ev.unlink env4.filePath ∈ (processFile env4).trace ↔
        env4.config.deleteAfterFailure = true) ∧
      (∀ ev ∈ (processFile env4).trace, ev ≠ Ev.unlink env4.filePath →
        isPipelineStepEv ev = false) ∧
      (processFile env4).outcome = Outcome.returned ∧
      (processFile env4).payload = none) :=
  ⟨⟨rfl, by decide, rfl, rfl, rfl, fun _ => rfl⟩,
   C4_invalid_schema env4 120 "raw" "run-1" (by decide) rfl (by decide) rfl rfl rfl
     (fun _ => rfl)⟩

theorem anonymizeLoop_no_update (env : Env) (ops : List (String × PresidioOperator)) :
    ∀ (msgs : List ChatMessage) (accM : List AnonymizedMessage) (accS : List (String × Nat)),
    ∀ ev ∈ (anonymizeLoop env ops msgs accM accS).1, isUpdateRunEv ev = false := by
  intro msgs
  induction msgs with
  | nil => intro accM accS ev hev; exact absurd hev (List.not_mem_nil _)
  | cons m rest ih =>
      intro accM accS ev hev
      rw [anonymizeLoop] at hev
      rcases hA : env.analyzeRes m.content with mF | fs <;> simp only [hA] at hev
      · rcases List.mem_cons.mp hev with h | h
        · subst h; rfl
        · exact absurd h (List.not_mem_nil _)
      · by_cases hlen : fs.length > 0
        · rw [if_pos hlen] at hev
          rcases hB : env.anonymizeRes m.content fs ops with mB | txt <;> simp only [hB] at hev
          · rcases List.mem_cons.mp hev with h | h
            · subst h; rfl
            · rcases List.mem_cons.mp h with h2 | h2
              · subst h2; rfl
              · exact absurd h2 (List.not_mem_nil _)
          · rcases List.mem_cons.mp hev with h | h
            · subst h; rfl
            · rcases List.mem_cons.mp h with h2 | h2
              · subst h2; rfl
              · exact ih _ _ ev h2
        · rw [if_neg hlen] at hev
          rcases List.mem_cons.mp hev with h | h
          · subst h; rfl
          · exact ih _ _ ev h

theorem anonymizeLoop_no_update_eq (env : Env) (ops : List (String × PresidioOperator))
    (msgs : List ChatMessage) (accM : List AnonymizedMessage) (accS : List (String × Nat))
    (evs : List Ev) (r : Except String (List AnonymizedMessage × List (String × Nat)))
    (heq : anonymizeLoop env ops msgs accM accS = (evs, r)) :
    ∀ ev ∈ evs, isUpdateRunEv ev = false := by
  intro ev hev
  exact anonymizeLoop_no_update env ops msgs accM accS ev (by rw [heq]; exact hev)

set_option maxHeartbeats 2000000 in
theorem processFile_no_run (env : Env) (hcr : env.createRunResult = none) :
    (∀ ev ∈ (processFile env).trace, isUpdateRunEv ev = false) ∧
    (processFile env).outcome = Outcome.returned := by
  unfold processFile afterAnonymized cleanupStep failBranch deliveryFailBranch
    analysisEvents deliverPayloadEvents
  simp only [hcr]
  repeat' split
  all_goals refine ⟨?_, rfl⟩
  all_goals intro ev hev
  all_goals simp only [List.mem_append, List.mem_cons, List.not_mem_nil, or_false, false_or,
    List.append_nil, List.nil_append, List.mem_singleton] at hev
  all_goals repeat (rcases hev with hev | hev)
  all_goals try (subst hev; rfl)
  all_goals try rfl
  all_goals first
    | (rcases hev with hev | hev <;> (subst hev; rfl))
    | exact anonymizeLoop_no_update _ _ _ _ _ _ hev

theorem afterAnonymized_httpDeliver (env : Env) (result : AnonymizationResult) (acc : List Ev)
    (hurl : ¬ env.targetUrl = "") :
    Ev.httpDeliver env.targetUrl ∈ (afterAnonymized env none result acc).trace := by
  have hD : deliverPayloadEvents env =
      ([Ev.httpDeliver env.targetUrl],
       match env.deliverFetch with
       | Except.error m => Except.error m
       | Except.ok (ok, status) =>
           if ok then Except.ok (some status)
           else Except.error ("Delivery target HTTP " ++ toString status)) := by
    unfold deliverPayloadEvents
    rw [if_neg hurl]
  unfold afterAnonymized
  rw [hD]
  rcases hDF : env.deliverFetch with m | ⟨ok, status⟩
  · simp only [hDF]
    simp
  · simp only [hDF]
    by_cases hok : ok
    · simp only [hok, if_true, ite_true]
      obtain ⟨t, ht⟩ := cleanupStep_trace env none
        (acc ++ analysisEvents env ++ [] ++ [Ev.httpDeliver env.targetUrl]) result
      simp only [List.append_nil] at ht ⊢
      rw [ht]
      simp
    · simp only [hok, if_false, ite_false, Bool.false_eq_true]
      simp

/-- C8 (amended): run-tracking degrades gracefully when `createRun` fails
(processing continues with no run updates and delivery still happens), and a
rejected `processing`-update is caught; but the `anonymized`-status update is
*not* wrapped in try/catch, so its rejection escapes `processFile` before
delivery — refuting the original claim that every tracking failure leaves
the pipeline unaffected. -/
theorem C8_run_mutation_failures (env : Env) (chat : ChatLog) (n : Nat) (raw : String)
    (id : String)
    (hext : ACCEPTED_EXTENSIONS.contains (toLowerStr (extname (basename env.filePath))) = true)
    (hstat : env.statSize = some n)
    (hsize : ¬ n > env.config.maxFileSizeBytes)
    (hread : env.readResult = some raw)
    (hparse : env.parseChatLog raw = some chat)
    (hfind : ∀ m ∈ chat.messages, env.analyzeRes m.content = Except.ok []) :
    (env.createRunResult = none →
      (∀ ev ∈ (processFile env).trace, isUpdateRunEv ev = false) ∧
      (processFile env).outcome = Outcome.returned) ∧
    (env.createRunResult = none → ¬ env.targetUrl = "" →
      Ev.httpDeliver env.targetUrl ∈ (processFile env).trace) ∧
    (env.createRunResult = some id → env.updateOk 0 = false → env.updateOk 1 = true →
      env.updateOk 2 = true → env.targetUrl = "" → env.config.deleteAfterSuccess = false →
      (processFile env).outcome = Outcome.returned) := by
  refine ⟨processFile_no_run env, ?_, ?_⟩
  · intro hcr hurl
    unfold processFile
    rw [hstat]
    simp only [hext, Bool.true_eq_false, not_true_eq_false, if_false, ite_false, ite_true,
      Bool.not_true, hsize, hread, hparse, hcr]
    rw [anonymizeLoop_ok env _ (fun _ => []) (fun m => m.content) chat.messages [] []
      hfind (fun m _ h => absurd h (by simp))]
    exact afterAnonymized_httpDeliver env _ _ hurl
  · intro hcr hu0 hu1 hu2 hurl hdel
    unfold processFile afterAnonymized cleanupStep deliverPayloadEvents
    rw [hstat]
    simp only [hext, Bool.true_eq_false, not_true_eq_false, if_false, ite_false, ite_true,
      Bool.not_true, hsize, hread, hparse, hcr, hurl, hdel]
    rw [anonymizeLoop_ok env _ (fun _ => []) (fun m => m.content) chat.messages [] []
      hfind (fun m _ h => absurd h (by simp))]
    simp only [hu1, hu2, if_true, ite_true, ite_false, if_false, Bool.false_eq_true]

/-- C8 counterexample: with only the `anonymized` update rejecting, the
run throws and no delivery request is made, while the same environment with
a resolving update delivers. -/
theorem C8_counterexample :
    (processFile env8).outcome = Outcome.threw "fetch failed" ∧
    (Ev.httpDeliver "http://t/" ∉ (processFile env8).trace) ∧
    Ev.httpDeliver "http://t/" ∈ (processFile env8b).trace := by
  refine ⟨rfl, ?_, ?_⟩
  · rw [show (processFile env8).trace =
        [Ev.createRun ("sha256:" ++ hashString "chat.json") 120 "queued",
         Ev.appendLog (some "run-1") "file_detected" "info"
           (some (Jval.obj [("byteSize", Jval.num 120)])),
         Ev.updateRun "run-1" { status := some "processing" },
         Ev.appendLog (some "run-1") "anonymize_started" "info" none,
         Ev.presidioAnalyze "hello" "en",
         Ev.updateRun "run-1" { status := some "anonymized", presidioStats := some [] }]
      from rfl]
    simp
  · have htr : Ev.httpDeliver "http://t/" ∈ (processFile env8b).trace ↔
        Ev.httpDeliver "http://t/" ∈
          [Ev.createRun ("sha256:" ++ hashString "chat.json") 120 "queued",
           Ev.appendLog (some "run-1") "file_detected" "info"
             (some (Jval.obj [("byteSize", Jval.num 120)])),
           Ev.updateRun "run-1" { status := some "processing" },
           Ev.appendLog (some "run-1") "anonymize_started" "info" none,
           Ev.presidioAnalyze "hello" "en",
           Ev.updateRun "run-1" { status := some "anonymized", presidioStats := some [] },
           Ev.appendLog (some "run-1") "anonymize_succeeded" "info"
             (some (Jval.obj [("entityCount", Jval.num 0)])),
           Ev.appendLog (some "run-1") "delivery_started" "info" none,
           Ev.httpDeliver "http://t/",
           Ev.updateRun "run-1" { status := some "delivered", deliveryStatusCode := some 200,
                                  deliveryDurationMs := some 0, durationMs := some 0 },
           Ev.appendLog (some "run-1") "delivery_succeeded" "info"
             (some (Jval.obj [("statusCode", Jval.num 200),
               ("deliveryDurationMs", Jval.num 0)]))] := Iff.rfl
    rw [htr]
    simp

/-- C8 witness: the amended theorem applied with a failed `createRun` and
with a rejected `processing` update. -/
theorem C8_run_mutation_failures_witness :
    (envN.createRunResult = none ∧ (¬ envN.targetUrl = "") ∧
      ((∀ ev ∈ (processFile envN).trace, isUpdateRunEv ev = false) ∧
        (processFile envN).outcome = Outcome.returned) ∧
      Ev.httpDeliver envN.targetUrl ∈ (processFile envN).trace) ∧
    (envS.createRunResult = some "run-1" ∧ envS.updateOk 0 = false ∧
      (processFile envS).outcome = Outcome.returned) :=
  ⟨⟨rfl, by decide,
    (C8_run_mutation_failures envN chat1 120 "raw" "run-1" (by decide) rfl (by decide) rfl rfl
      (fun _ _ => rfl)).1 rfl,
    (C8_run_mutation_failures envN chat1 120 "raw" "run-1" (by decide) rfl (by decide) rfl rfl
      (fun _ _ => rfl)).2.1 rfl (by decide)⟩,
   ⟨rfl, rfl,
    (C8_run_mutation_failures envS chat1 120 "raw" "run-1" (by decide) rfl (by decide) rfl rfl
      (fun _ _ => rfl)).2.2 rfl rfl rfl rfl rfl rfl⟩⟩

theorem errorMessageOk_of_none (f : RunUpdate) (hc : f.errorCode = none)
    (hm : f.errorMessageSafe = none) : errorMessageOk f := by
  refine ⟨?_, ?_, ?_, ?_, fun _ => hm⟩ <;> intro h <;> rw [hc] at h <;> exact absurd h (by simp)

theorem errorMessageOk_read : errorMessageOk
    { status := some "failed", errorCode := some "READ_ERROR",
      errorMessageSafe := some "Could not read file" } := by
  refine ⟨fun _ => rfl, ?_, ?_, ?_, ?_⟩ <;> intro h <;> simp at h

theorem errorMessageOk_schema : errorMessageOk
    { status := some "failed", errorCode := some "INVALID_SCHEMA",
      errorMessageSafe := some "Invalid schema" } := by
  refine ⟨?_, fun _ => rfl, ?_, ?_, ?_⟩ <;> intro h <;> simp at h

theorem errorMessageOk_presidio (m : String) : errorMessageOk
    { status := some "failed", errorCode := some "PRESIDIO_ERROR",
      errorMessageSafe := some ("Presidio error: " ++ m) } := by
  refine ⟨?_, ?_, fun _ => ⟨m, rfl⟩, ?_, ?_⟩ <;> intro h <;> simp at h

theorem errorMessageOk_delivery (m : String) (ddm dm : Option Int) : errorMessageOk
    { status := some "failed", errorCode := some "DELIVERY_ERROR",
      errorMessageSafe := some ("Delivery error: " ++ m),
      deliveryDurationMs := ddm, durationMs := dm } := by
  refine ⟨?_, ?_, ?_, fun _ => ⟨m, rfl⟩, ?_⟩ <;> intro h <;> simp at h

theorem updSafe_of_not_update (ev : Ev) (h : isUpdateRunEv ev = false) : updSafe ev := by
  intro id f hf
  rw [hf] at h
  simp [isUpdateRunEv] at h

theorem updSafe_update (id : String) (f : RunUpdate) (hok : errorMessageOk f) :
    updSafe (Ev.updateRun id f) := by
  intro id' f' hf
  injection hf with h1 h2
  subst h2
  exact hok

theorem updSafeL_nil : updSafeL [] := fun _ h => absurd h (List.not_mem_nil _)

theorem updSafeL_cons (a : Ev) (l : List Ev) (ha : updSafe a) (hl : updSafeL l) :
    updSafeL (a :: l) := by
  intro ev h
  rcases List.mem_cons.mp h with h | h
  · subst h; exact ha
  · exact hl ev h

theorem updSafeL_append (l1 l2 : List Ev) (h1 : updSafeL l1) (h2 : updSafeL l2) :
    updSafeL (l1 ++ l2) := by
  intro ev h
  rcases List.mem_append.mp h with h | h
  · exact h1 ev h
  · exact h2 ev h

theorem anonymizeLoop_updSafeL (env : Env) (ops : List (String × PresidioOperator))
    (msgs : List ChatMessage) (accM : List AnonymizedMessage) (accS : List (String × Nat)) :
    updSafeL (anonymizeLoop env ops msgs accM accS).1 :=
  fun ev h => updSafe_of_not_update _ (anonymizeLoop_no_update env ops msgs accM accS ev h)

theorem analysisEvents_updSafeL (env : Env) : updSafeL (analysisEvents env) := by
  simp only [analysisEvents]
  repeat' split
  repeat'
    first
      | exact updSafeL_nil
      | refine updSafeL_append _ _ ?_ ?_
      | refine updSafeL_cons _ _ ?_ ?_
      | exact updSafe_of_not_update _ rfl

theorem deliverPayload_updSafeL (env : Env) : updSafeL (deliverPayloadEvents env).1 := by
  simp only [deliverPayloadEvents]
  repeat' split
  repeat'
    first
      | exact updSafeL_nil
      | refine updSafeL_cons _ _ ?_ ?_
      | exact updSafe_of_not_update _ rfl

theorem failBranch_updSafeL (env : Env) (uIdx : Nat) (runId : Option String)
    (code msgSafe : String)
    (hok : errorMessageOk { status := some "failed", errorCode := some code,
                            errorMessageSafe := some msgSafe }) :
    updSafeL (failBranch env uIdx runId code msgSafe).1 := by
  simp only [failBranch]
  repeat' split
  repeat'
    first
      | exact updSafeL_nil
      | refine updSafeL_cons _ _ ?_ ?_
      | exact updSafe_update _ _ hok
      | exact updSafe_of_not_update _ rfl

theorem deliveryFailBranch_updSafeL (env : Env) (uIdx tIdx : Nat) (runId : Option String)
    (msg : String) : updSafeL (deliveryFailBranch env uIdx tIdx runId msg).1 := by
  simp only [deliveryFailBranch]
  repeat' split
  repeat'
    first
      | exact updSafeL_nil
      | refine updSafeL_cons _ _ ?_ ?_
      | exact updSafe_update _ _ (errorMessageOk_delivery _ _ _)
      | exact updSafe_of_not_update _ rfl

theorem cleanupStep_updSafeL (env : Env) (runId : Option String) (acc : List Ev)
    (result : AnonymizationResult) (hacc : updSafeL acc) :
    updSafeL (cleanupStep env runId acc result).trace := by
  simp only [cleanupStep]
  repeat' split
  repeat'
    first
      | exact updSafeL_nil
      | exact hacc
      | refine updSafeL_append _ _ ?_ ?_
      | refine updSafeL_cons _ _ ?_ ?_
      | exact updSafe_update _ _ (errorMessageOk_of_none _ rfl rfl)
      | exact updSafe_of_not_update _ rfl

theorem afterAnonymized_updSafeL (env : Env) (runId : Option String)
    (result : AnonymizationResult) (acc : List Ev) (hacc : updSafeL acc) :
    updSafeL (afterAnonymized env runId result acc).trace := by
  simp only [afterAnonymized]
  repeat' split
  repeat'
    first
      | exact updSafeL_nil
      | exact hacc
      | refine updSafeL_append _ _ ?_ ?_
      | refine updSafeL_cons _ _ ?_ ?_
      | exact analysisEvents_updSafeL env
      | exact deliverPayload_updSafeL env
      | exact deliveryFailBranch_updSafeL env _ _ _ _
      | exact updSafe_update _ _ (errorMessageOk_of_none _ rfl rfl)
      | exact updSafe_of_not_update _ rfl
      | refine cleanupStep_updSafeL _ _ _ _ ?_

set_option maxHeartbeats 1600000 in
/-- C1 (amended): every `updateRun` issued by `processFile` satisfies
`errorMessageOk`: `READ_ERROR` and `INVALID_SCHEMA` carry the hardcoded safe
strings, but `PRESIDIO_ERROR` and `DELIVERY_ERROR` carry the raw exception
text prefixed with `"Presidio error: "` / `"Delivery error: "`, and updates
without an error code carry no message.  The original claim that every
`errorMessageSafe` is a hardcoded safe string is refuted by
the counterexample below. -/
theorem C1_errorMessageSafe_amended (env : Env) :
    ∀ (id : String) (f : RunUpdate),
      Ev.updateRun id f ∈ (processFile env).trace → errorMessageOk f := by
  have key : updSafeL (processFile env).trace := by
    simp only [processFile]
    repeat' split
    repeat'
      first
        | exact updSafeL_nil
        | refine updSafeL_append _ _ ?_ ?_
        | refine updSafeL_cons _ _ ?_ ?_
        | exact anonymizeLoop_updSafeL env _ _ _ _
        | exact failBranch_updSafeL env _ _ _ _ errorMessageOk_read
        | exact failBranch_updSafeL env _ _ _ _ errorMessageOk_schema
        | exact failBranch_updSafeL env _ _ _ _ (errorMessageOk_presidio _)
        | exact updSafe_update _ _ (errorMessageOk_of_none _ rfl rfl)
        | exact updSafe_of_not_update _ rfl
        | refine afterAnonymized_updSafeL env _ _ _ ?_
  intro id f hev
  exact key _ hev id f rfl

/-- C1 counterexample: when the Presidio analyze call rejects, the raw
exception text (here containing an e-mail address) is embedded verbatim in
`errorMessageSafe`, and the persisted value varies with the exception
message — it is not a hardcoded safe string. -/
theorem C1_counterexample :
    Ev.updateRun "run-1"
        { status := some "failed", errorCode := some "PRESIDIO_ERROR",
          errorMessageSafe := some "Presidio error: ECONNREFUSED at john.smith@example.com" } ∈
      (processFile env1p).trace ∧
    Ev.updateRun "run-1"
        { status := some "failed", errorCode := some "PRESIDIO_ERROR",
          errorMessageSafe := some "Presidio error: socket hang up" } ∈
      (processFile env1q).trace := by
  constructor <;>
    exact List.mem_cons_of_mem _ (List.mem_cons_of_mem _ (List.mem_cons_of_mem _
      (List.mem_cons_of_mem _ (List.mem_cons_of_mem _ (List.mem_cons_self _ _)))))

/-- C1 witness: the amended theorem applied to the baseline environment at
the `processing` update. -/
theorem C1_errorMessageSafe_amended_witness :
    errorMessageOk { status := some "processing" } :=
  C1_errorMessageSafe_amended env0 "run-1" { status := some "processing" }
    (List.mem_cons_of_mem _ (List.mem_cons_of_mem _ (List.mem_cons_self _ _)))

theorem callTargetsLoop_allOk (env : MTEnv) (result : AnonymizationResult) (st : Nat → Nat) :
    ∀ (ts : List DeliveryTarget) (n : Nat) (sc : Option Nat),
      (∀ i, i < ts.length → env.httpAt (n + i) = Except.ok (true, st (n + i))) →
      callTargetsLoop env result ts n sc =
        (ts.map (fun t => Ev.callTarget t.name (callTargetRequest t result).url),
         Except.ok (if 0 < ts.length then some (st (n + ts.length - 1)) else sc)) := by
  intro ts
  induction ts with
  | nil => intro n sc _; simp [callTargetsLoop]
  | cons t rest ih =>
      intro n sc h
      have h0 : env.httpAt n = Except.ok (true, st n) := by simpa using h 0 (by simp)
      have h' : ∀ i, i < rest.length → env.httpAt (n + 1 + i) = Except.ok (true, st (n + 1 + i)) := by
        intro i hi
        have := h (i + 1) (by simpa using Nat.succ_lt_succ hi)
        rwa [show n + (i + 1) = n + 1 + i by omega] at this
      rw [callTargetsLoop]
      simp only [h0, if_true, ite_true]
      rw [ih (n + 1) (some (st n)) h']
      simp only [List.map_cons, List.length_cons]
      by_cases hr : 0 < rest.length
      · rw [if_pos hr, if_pos (Nat.succ_pos _)]
        have : n + 1 + rest.length - 1 = n + (rest.length + 1) - 1 := by omega
        rw [this]
      · rw [if_neg hr, if_pos (Nat.succ_pos _)]
        have h0' : rest.length = 0 := by omega
        rw [h0', show n + (0 + 1) - 1 = n by omega]

theorem callTargetsLoop_failAt (env : MTEnv) (result : AnonymizationResult) (st : Nat → Nat)
    (status : Nat) :
    ∀ (k : Nat) (ts : List DeliveryTarget) (n : Nat) (sc : Option Nat) (hk : k < ts.length),
      (∀ i, i < k → env.httpAt (n + i) = Except.ok (true, st (n + i))) →
      env.httpAt (n + k) = Except.ok (false, status) →
      callTargetsLoop env result ts n sc =
        ((ts.take (k + 1)).map (fun t => Ev.callTarget t.name (callTargetRequest t result).url),
         Except.error ("Delivery target \"" ++ (ts.get ⟨k, hk⟩).name ++ "\" HTTP " ++
           toString status)) := by
  intro k
  induction k with
  | zero =>
      intro ts n sc hk hpre hfail
      rcases ts with _ | ⟨t, rest⟩
      · simp at hk
      · rw [callTargetsLoop]
        rw [show n + 0 = n by omega] at hfail
        simp only [hfail, if_false, ite_false]
        simp [List.take, List.get]
  | succ k ih =>
      intro ts n sc hk hpre hfail
      rcases ts with _ | ⟨t, rest⟩
      · simp at hk
      · have h0 : env.httpAt n = Except.ok (true, st n) := by
          simpa using hpre 0 (Nat.succ_pos _)
        have h' : ∀ i, i < k → env.httpAt (n + 1 + i) = Except.ok (true, st (n + 1 + i)) := by
          intro i hi
          have := hpre (i + 1) (by simpa using Nat.succ_lt_succ hi)
          rwa [show n + (i + 1) = n + 1 + i by omega] at this
        have hfail' : env.httpAt (n + 1 + k) = Except.ok (false, status) := by
          rwa [show n + (k + 1) = n + 1 + k by omega] at hfail
        rw [callTargetsLoop]
        simp only [h0, if_true, ite_true]
        rw [ih rest (n + 1) (some (st n)) (by simpa using hk) h' hfail']
        simp [List.take, List.get]

set_option maxHeartbeats 800000 in
/-- C5: with at least one enabled delivery target, the loop calls every
enabled target sequentially in configured order; if all calls succeed the run
is updated to `delivered` with `deliveryStatusCode` equal to the last call's
status, and if the call for target `k` fails only the first `k + 1` targets
are called and the run is marked `failed` with `DELIVERY_ERROR`. -/
theorem C5_multi_target_delivery (env : MTEnv) (runId : String)
    (result : AnonymizationResult) (st : Nat → Nat) (status : Nat)
    (hne : 0 < (fetchDeliveryTargets env).length)
    (hupd : env.updateOk 2 = true) :
    ((∀ i, i < (fetchDeliveryTargets env).length → env.httpAt i = Except.ok (true, st i)) →
      deliveryStep15 env (some runId) result =
        ([Ev.appendLog (some runId) "delivery_started" "info" none] ++
          (fetchDeliveryTargets env).map
            (fun t => Ev.callTarget t.name (callTargetRequest t result).url) ++
          [Ev.updateRun runId
             { status := some "delivered",
               deliveryStatusCode := some (st ((fetchDeliveryTargets env).length - 1)),
               deliveryDurationMs := some (env.timeAt 2 - env.timeAt 1),
               durationMs := some (env.timeAt 3 - env.timeAt 0) },
           Ev.appendLog (some runId) "delivery_succeeded" "info"
             (some (Jval.obj
               [("statusCode", optNatJval (some (st ((fetchDeliveryTargets env).length - 1)))),
                ("deliveryDurationMs", Jval.num (env.timeAt 2 - env.timeAt 1))]))],
         Outcome.returned)) ∧
    (∀ k (hk : k < (fetchDeliveryTargets env).length),
      (∀ i, i < k → env.httpAt i = Except.ok (true, st i)) →
      env.httpAt k = Except.ok (false, status) →
      deliveryStep15 env (some runId) result =
        ([Ev.appendLog (some runId) "delivery_started" "info" none] ++
          ((fetchDeliveryTargets env).take (k + 1)).map
            (fun t => Ev.callTarget t.name (callTargetRequest t result).url) ++
          (Ev.updateRun runId
             { status := some "failed", errorCode := some "DELIVERY_ERROR",
               errorMessageSafe := some ("Delivery error: " ++
                 ("Delivery target \"" ++ ((fetchDeliveryTargets env).get ⟨k, hk⟩).name ++
                  "\" HTTP " ++ toString status)),
               deliveryDurationMs := some (env.timeAt 2 - env.timeAt 1),
               durationMs := some (env.timeAt 3 - env.timeAt 0) } ::
           Ev.appendLog (some runId) "run_failed" "error"
             (some (Jval.obj [("errorCode", Jval.str "DELIVERY_ERROR")])) ::
           (if env.deleteAfterFailure then [Ev.unlink env.filePath] else [])),
         Outcome.returned)) := by
  constructor
  · intro hok
    have hloop := callTargetsLoop_allOk env result st (fetchDeliveryTargets env) 0 none
      (by intro i hi; simpa using hok i hi)
    simp only [deliveryStep15, if_pos hne, hloop, if_pos (by simpa using hne : 0 < (fetchDeliveryTargets env).length)]
    simp only [hupd, if_true, ite_true, Nat.zero_add]
  · intro k hk hpre hfail
    have hloop := callTargetsLoop_failAt env result st status k (fetchDeliveryTargets env) 0 none
      hk (by intro i hi; simpa using hpre i hi) (by simpa using hfail)
    simp only [deliveryStep15, if_pos hne, hloop]
    simp only [deliveryFailBranchMT, hupd, if_true, ite_true]

/-- C5 witness: the delivery theorem applied to two enabled targets (plus a
disabled one), once all-success and once with the second call failing. -/
theorem C5_multi_target_delivery_witness :
    (0 < (fetchDeliveryTargets envMT).length ∧ envMT.updateOk 2 = true ∧
      deliveryStep15 envMT (some "run-1") resW =
        ([Ev.appendLog (some "run-1") "delivery_started" "info" none] ++
          (fetchDeliveryTargets envMT).map
            (fun t => Ev.callTarget t.name (callTargetRequest t resW).url) ++
          [Ev.updateRun "run-1"
             { status := some "delivered", deliveryStatusCode := some 200,
               deliveryDurationMs := some 0, durationMs := some 0 },
           Ev.appendLog (some "run-1") "delivery_succeeded" "info"
             (some (Jval.obj [("statusCode", optNatJval (some 200)),
               ("deliveryDurationMs", Jval.num 0)]))], Outcome.returned)) ∧
    (1 < (fetchDeliveryTargets envMT2).length ∧
      envMT2.httpAt 1 = Except.ok (false, 500) ∧
      deliveryStep15 envMT2 (some "run-1") resW =
        ([Ev.appendLog (some "run-1") "delivery_started" "info" none] ++
          ((fetchDeliveryTargets envMT2).take 2).map
            (fun t => Ev.callTarget t.name (callTargetRequest t resW).url) ++
          [Ev.updateRun "run-1"
             { status := some "failed", errorCode := some "DELIVERY_ERROR",
               errorMessageSafe := some "Delivery error: Delivery target \"beta\" HTTP 500",
               deliveryDurationMs := some 0, durationMs := some 0 },
           Ev.appendLog (some "run-1") "run_failed" "error"
             (some (Jval.obj [("errorCode", Jval.str "DELIVERY_ERROR")]))],
         Outcome.returned)) :=
  ⟨⟨by decide, rfl,
    (C5_multi_target_delivery envMT "run-1" resW (fun _ => 200) 500 (by decide) rfl).1
      (fun _ _ => rfl)⟩,
   ⟨by decide, rfl,
    (C5_multi_target_delivery envMT2 "run-1" resW (fun _ => 200) 500 (by decide) rfl).2
      1 (by decide)
      (by intro i hi
          have h0 : i = 0 := by omega
          subst h0
          rfl)
      rfl⟩⟩

end LocalAnonymizer
